import Mathlib

/-! # genhttp: the `Handle` dispatcher

A shallow embedding of `Handle` from `handle.go`.

Every call the dispatcher makes into user code (the response factory, the
handler's three phases, the response's methods) and into `net/http`
(`http.SetCookie`, `http.Redirect`) is a transition on a world state `σ` that
either returns normally or panics.  The dispatcher's own frame holds the world,
the local variable `ctx` (the deferred closures capture it by reference, so they
read its latest value) and a ghost trace of the calls made so far, in order.
Calls are sequential: a call logged in the trace has returned or panicked before
the next one is logged.  A call that neither returns nor panics (one that loops
for ever, or ends the goroutine or the process) is outside the model.
-/

namespace Genhttp

/-- Result of a Go call: it returns a value, or it panics with the value that
`recover()` reports for the panic.  `none` is a nil value: that of `panic(nil)`
before Go 1.21; from Go 1.21 on `panic(nil)` is reported as a non-nil
`*runtime.PanicNilError`, that is as `some`, and `none` does not occur.  Both
carry the world as the call left it. -/
inductive Outcome (P σ α : Type) where
  | ret (a : α) (s : σ)
  | panic (msg : Option P) (s : σ)
  deriving DecidableEq, Repr

/-- The calls made by the handler returned by `Handle`, with their arguments. -/
inductive Event (Ctx Raw Req R Cookie P W : Type) where
  | newResponse (ctx : Ctx) (r : Raw)
  | hasErrors (resp : R)
  | parseRequest (ctx : Ctx) (r : Raw) (resp : R)
  | validateRequest (ctx : Ctx) (req : Req) (resp : R)
  | executeRequest (ctx : Ctx) (req : Req) (resp : R)
  | handlePanic (resp : R) (ctx : Ctx) (msg : P)
  | writeCookies (resp : R)
  | setCookie (w : W) (cookie : Cookie)
  | redirectTo (resp : R)
  | redirect (w : W) (r : Raw) (url : String) (code : Int)
  | send (resp : R) (ctx : Ctx) (w : W)
  deriving DecidableEq, Repr

/-- Everything `Handle` is parameterised by: the `ResponseCreator`, the
`Responder` methods of the response, the two optional interfaces probed with a
type assertion (`none`: the assertion fails), the `Handler` and the `net/http`
operations on the writer. -/
structure Env (σ Ctx Raw Req R Cookie P W : Type) where
  /-- The request's own context, `r.Context()`. -/
  context : Raw → Ctx
  /-- The factory method `rf.NewResponse(ctx, r)`. -/
  newResponse : Ctx → Raw → σ → Outcome P σ R
  /-- The method `resp.HasErrors()`. -/
  hasErrors : R → σ → Outcome P σ Bool
  /-- The method `resp.Send(ctx, w)`. -/
  send : R → Ctx → W → σ → Outcome P σ Unit
  /-- The method `resp.HandlePanic(ctx, recoverArg)`. -/
  handlePanic : R → Ctx → P → σ → Outcome P σ Unit
  /-- The assertion `any(resp).(CookieWriter)` and its `WriteCookies()`. -/
  cookieWriter : R → Option (σ → Outcome P σ (List Cookie))
  /-- The assertion `any(resp).(Redirecter)` and its `RedirectTo()`. -/
  redirecter : R → Option (σ → Outcome P σ (String × Int))
  /-- The method `handler.ParseRequest(ctx, r, resp)`. -/
  parseRequest : Ctx → Raw → R → σ → Outcome P σ (Req × Ctx)
  /-- The method `handler.ValidateRequest(ctx, req, resp)`. -/
  validateRequest : Ctx → Req → R → σ → Outcome P σ Ctx
  /-- The method `handler.ExecuteRequest(ctx, req, resp)`. -/
  executeRequest : Ctx → Req → R → σ → Outcome P σ Ctx
  /-- The library call `http.SetCookie(w, cookie)`. -/
  setCookie : W → Cookie → σ → Outcome P σ Unit
  /-- The library call `http.Redirect(w, r, url, code)`. -/
  redirect : W → Raw → String → Int → σ → Outcome P σ Unit

/-- The frame of one run of the handler: the world, the local `ctx`, and the
trace of calls made so far. -/
structure Frame (σ Ctx Raw Req R Cookie P W : Type) where
  world : σ
  ctx : Ctx
  trace : List (Event Ctx Raw Req R Cookie P W)
  deriving DecidableEq, Repr

section Dispatcher

variable {σ Ctx Raw Req R Cookie P W : Type}

/-- A step of the handler: a transition on its frame. -/
abbrev Exec (σ Ctx Raw Req R Cookie P W α : Type) :=
  Frame σ Ctx Raw Req R Cookie P W → Outcome P (Frame σ Ctx Raw Req R Cookie P W) α

/-- Make one call: log it, run it on the world, keep the world it leaves. -/
def call {α : Type} (ev : Event Ctx Raw Req R Cookie P W) (f : σ → Outcome P σ α) :
    Exec σ Ctx Raw Req R Cookie P W α := fun fr =>
  match f fr.world with
  | .ret a s => .ret a { fr with world := s, trace := fr.trace ++ [ev] }
  | .panic m s => .panic m { fr with world := s, trace := fr.trace ++ [ev] }

/-- The loop `for _, cookie := range cookies { http.SetCookie(w, cookie) }`. -/
def setCookies (env : Env σ Ctx Raw Req R Cookie P W) (w : W) :
    List Cookie → Exec σ Ctx Raw Req R Cookie P W Unit
  | [] => fun fr => .ret () fr
  | c :: cs => fun fr =>
    match call (.setCookie w c) (env.setCookie w c) fr with
    | .ret _ fr1 => setCookies env w cs fr1
    | .panic m fr1 => .panic m fr1

/-- The second half of the first deferred function (`handle.go`, lines 95-102):
redirect when the response is a `Redirecter` giving a 3xx code, else `Send`. -/
def redirectOrSend (env : Env σ Ctx Raw Req R Cookie P W) (w : W) (r : Raw) (resp : R) :
    Exec σ Ctx Raw Req R Cookie P W Unit := fun fr =>
  match env.redirecter resp with
  | some redirectTo =>
    match call (.redirectTo resp) redirectTo fr with
    | .ret (url, code) fr1 =>
      if code ≥ 300 ∧ code < 400 then
        call (.redirect w r url code) (env.redirect w r url code) fr1
      else
        call (.send resp fr1.ctx w) (env.send resp fr1.ctx w) fr1
    | .panic m fr1 => .panic m fr1
  | none => call (.send resp fr.ctx w) (env.send resp fr.ctx w) fr

/-- The first half of the first deferred function (`handle.go`, lines 90-94):
when the response is a `CookieWriter`, every cookie it returns goes to
`http.SetCookie`, in order. -/
def writeCookies (env : Env σ Ctx Raw Req R Cookie P W) (w : W) (resp : R) :
    Exec σ Ctx Raw Req R Cookie P W Unit := fun fr =>
  match env.cookieWriter resp with
  | some getCookies =>
    match call (.writeCookies resp) getCookies fr with
    | .ret cookies fr1 => setCookies env w cookies fr1
    | .panic m fr1 => .panic m fr1
  | none => .ret () fr

/-- The first deferred function (`handle.go`, lines 89-103): write the cookies
of a `CookieWriter`, then redirect or `Send`. -/
def finalize (env : Env σ Ctx Raw Req R Cookie P W) (w : W) (r : Raw) (resp : R) :
    Exec σ Ctx Raw Req R Cookie P W Unit := fun fr =>
  match writeCookies env w resp fr with
  | .ret _ fr1 => redirectOrSend env w r resp fr1
  | .panic m fr1 => .panic m fr1

/-- The statements after the two `defer`s (`handle.go`, lines 111-126). -/
def body (env : Env σ Ctx Raw Req R Cookie P W) (r : Raw) (resp : R) :
    Exec σ Ctx Raw Req R Cookie P W Unit := fun fr =>
  match call (.hasErrors resp) (env.hasErrors resp) fr with
  | .panic m fr1 => .panic m fr1
  | .ret true fr1 => .ret () fr1
  | .ret false fr1 =>
    match call (.parseRequest fr1.ctx r resp) (env.parseRequest fr1.ctx r resp) fr1 with
    | .panic m fr2 => .panic m fr2
    | .ret (req, ctx2) fr2 =>
      let fr2 := { fr2 with ctx := ctx2 }
      match call (.hasErrors resp) (env.hasErrors resp) fr2 with
      | .panic m fr3 => .panic m fr3
      | .ret true fr3 => .ret () fr3
      | .ret false fr3 =>
        match call (.validateRequest fr3.ctx req resp)
            (env.validateRequest fr3.ctx req resp) fr3 with
        | .panic m fr4 => .panic m fr4
        | .ret ctx4 fr4 =>
          let fr4 := { fr4 with ctx := ctx4 }
          match call (.hasErrors resp) (env.hasErrors resp) fr4 with
          | .panic m fr5 => .panic m fr5
          | .ret true fr5 => .ret () fr5
          | .ret false fr5 =>
            match call (.executeRequest fr5.ctx req resp)
                (env.executeRequest fr5.ctx req resp) fr5 with
            | .panic m fr6 => .panic m fr6
            | .ret ctx6 fr6 => .ret () { fr6 with ctx := ctx6 }

/-- The second deferred function (`handle.go`, lines 104-110), run first when
the function exits: `recover()` stops a panic in progress and yields its value;
a nil value returns at once, any other is handed to `HandlePanic`. -/
def panicGuard (env : Env σ Ctx Raw Req R Cookie P W) (resp : R) :
    Outcome P (Frame σ Ctx Raw Req R Cookie P W) Unit →
    Outcome P (Frame σ Ctx Raw Req R Cookie P W) Unit
  | .ret _ fr => .ret () fr
  | .panic none fr => .ret () fr
  | .panic (some msg) fr =>
    call (.handlePanic resp fr.ctx msg) (env.handlePanic resp fr.ctx msg) fr

/-- A deferred function that does not call `recover()`: it runs whether the
function is returning or panicking; its own panic replaces the one in progress,
and otherwise a panic in progress goes on once it has returned. -/
def runDeferred (d : Exec σ Ctx Raw Req R Cookie P W Unit) :
    Outcome P (Frame σ Ctx Raw Req R Cookie P W) Unit →
    Outcome P (Frame σ Ctx Raw Req R Cookie P W) Unit
  | .ret _ fr => d fr
  | .panic m fr =>
    match d fr with
    | .ret _ fr1 => .panic m fr1
    | .panic m1 fr1 => .panic m1 fr1

/-- The `http.Handler` returned by `Handle(rf, handler)`, run on writer `w` and
request `r` from world `s`.  A panic of `NewResponse` happens before any `defer`
statement and leaves the handler as it is. -/
def Handle (env : Env σ Ctx Raw Req R Cookie P W) (w : W) (r : Raw) (s : σ) :
    Outcome P (Frame σ Ctx Raw Req R Cookie P W) Unit :=
  let ctx := env.context r
  match call (.newResponse ctx r) (env.newResponse ctx r)
      { world := s, ctx := ctx, trace := [] } with
  | .panic m fr => .panic m fr
  | .ret resp fr =>
    runDeferred (finalize env w r resp) (panicGuard env resp (body env r resp fr))

/-- The frame an outcome leaves behind, however the call ended. -/
def Outcome.frame {F α : Type} : Outcome P F α → F
  | .ret _ fr => fr
  | .panic _ fr => fr

/-- The frame in which the deferred finalization starts: the one left by the
statements after the `defer`s followed by the panic guard, from world `s1` (the
one `NewResponse` left) on. -/
def exitFrame (env : Env σ Ctx Raw Req R Cookie P W) (r : Raw) (resp : R) (s1 : σ) :
    Frame σ Ctx Raw Req R Cookie P W :=
  (panicGuard env resp (body env r resp
    { world := s1, ctx := env.context r,
      trace := [.newResponse (env.context r) r] })).frame

/-- Calls of one of the handler's three phases. -/
def Event.isPhase : Event Ctx Raw Req R Cookie P W → Bool
  | .parseRequest .. => true
  | .validateRequest .. => true
  | .executeRequest .. => true
  | _ => false

/-- Calls made by the statements after the `defer`s: the phases and the
`HasErrors` checks. -/
def Event.isPipeline : Event Ctx Raw Req R Cookie P W → Bool
  | .hasErrors .. => true
  | .parseRequest .. => true
  | .validateRequest .. => true
  | .executeRequest .. => true
  | _ => false

/-- Calls to `HandlePanic`. -/
def Event.isHandlePanic : Event Ctx Raw Req R Cookie P W → Bool
  | .handlePanic .. => true
  | _ => false

/-- Calls made by the deferred finalization. -/
def Event.isFinalization : Event Ctx Raw Req R Cookie P W → Bool
  | .writeCookies .. => true
  | .setCookie .. => true
  | .redirectTo .. => true
  | .redirect .. => true
  | .send .. => true
  | _ => false

/-- Calls made by the cookie half of the finalization. -/
def Event.isCookieWriting : Event Ctx Raw Req R Cookie P W → Bool
  | .writeCookies .. => true
  | .setCookie .. => true
  | _ => false

/-- The two calls that answer the request: `http.Redirect` and `Send`. -/
def Event.isTerminal : Event Ctx Raw Req R Cookie P W → Bool
  | .redirect .. => true
  | .send .. => true
  | _ => false

/-- The cookie of a call to `http.SetCookie`. -/
def Event.cookie? : Event Ctx Raw Req R Cookie P W → Option Cookie
  | .setCookie _ c => some c
  | _ => none

/-- Calls made by the second half of the finalization. -/
def Event.isRedirectOrSend : Event Ctx Raw Req R Cookie P W → Bool
  | .redirectTo .. => true
  | .redirect .. => true
  | .send .. => true
  | _ => false

/-- Calls to `http.SetCookie`. -/
def Event.isSetCookie : Event Ctx Raw Req R Cookie P W → Bool
  | .setCookie .. => true
  | _ => false

/-- Calls to `Send`. -/
def Event.isSend : Event Ctx Raw Req R Cookie P W → Bool
  | .send .. => true
  | _ => false

/-- Calls made before the deferred functions run, except `HandlePanic`: the
call of the factory, the `HasErrors` checks and the phases. -/
def Event.isMainCall : Event Ctx Raw Req R Cookie P W → Bool
  | .newResponse .. => true
  | .hasErrors .. => true
  | .parseRequest .. => true
  | .validateRequest .. => true
  | .executeRequest .. => true
  | _ => false

/-- One of the three phases panics with the non-nil value `v`, the run having
got that far: every `HasErrors` check before it returned false and every phase
before it returned.  The indices are the local `ctx` at that moment, the world
the panicking call left, and the calls made since `NewResponse` returned. -/
inductive PhasePanics (env : Env σ Ctx Raw Req R Cookie P W) (r : Raw) (resp : R) (s1 : σ)
    (v : P) : Ctx → σ → List (Event Ctx Raw Req R Cookie P W) → Prop where
  | parse (s2 sP : σ)
      (h1 : env.hasErrors resp s1 = .ret false s2)
      (h2 : env.parseRequest (env.context r) r resp s2 = .panic (some v) sP) :
      PhasePanics env r resp s1 v (env.context r) sP
        [.hasErrors resp, .parseRequest (env.context r) r resp]
  | validate (s2 s3 s4 sP : σ) (req : Req) (ctx2 : Ctx)
      (h1 : env.hasErrors resp s1 = .ret false s2)
      (h2 : env.parseRequest (env.context r) r resp s2 = .ret (req, ctx2) s3)
      (h3 : env.hasErrors resp s3 = .ret false s4)
      (h4 : env.validateRequest ctx2 req resp s4 = .panic (some v) sP) :
      PhasePanics env r resp s1 v ctx2 sP
        [.hasErrors resp, .parseRequest (env.context r) r resp, .hasErrors resp,
          .validateRequest ctx2 req resp]
  | execute (s2 s3 s4 s5 s6 sP : σ) (req : Req) (ctx2 ctx4 : Ctx)
      (h1 : env.hasErrors resp s1 = .ret false s2)
      (h2 : env.parseRequest (env.context r) r resp s2 = .ret (req, ctx2) s3)
      (h3 : env.hasErrors resp s3 = .ret false s4)
      (h4 : env.validateRequest ctx2 req resp s4 = .ret ctx4 s5)
      (h5 : env.hasErrors resp s5 = .ret false s6)
      (h6 : env.executeRequest ctx4 req resp s6 = .panic (some v) sP) :
      PhasePanics env r resp s1 v ctx4 sP
        [.hasErrors resp, .parseRequest (env.context r) r resp, .hasErrors resp,
          .validateRequest ctx2 req resp, .hasErrors resp,
          .executeRequest ctx4 req resp]

/-- One of the three `HasErrors` checks returns true, the run having got that
far.  The indices are the local `ctx` at that moment, the world the check left,
and the calls made since `NewResponse` returned. -/
inductive ShortCircuits (env : Env σ Ctx Raw Req R Cookie P W) (r : Raw) (resp : R)
    (s1 : σ) : Ctx → σ → List (Event Ctx Raw Req R Cookie P W) → Prop where
  | created (s2 : σ)
      (h1 : env.hasErrors resp s1 = .ret true s2) :
      ShortCircuits env r resp s1 (env.context r) s2 [.hasErrors resp]
  | parsed (s2 s3 s4 : σ) (req : Req) (ctx2 : Ctx)
      (h1 : env.hasErrors resp s1 = .ret false s2)
      (h2 : env.parseRequest (env.context r) r resp s2 = .ret (req, ctx2) s3)
      (h3 : env.hasErrors resp s3 = .ret true s4) :
      ShortCircuits env r resp s1 ctx2 s4
        [.hasErrors resp, .parseRequest (env.context r) r resp, .hasErrors resp]
  | validated (s2 s3 s4 s5 s6 : σ) (req : Req) (ctx2 ctx4 : Ctx)
      (h1 : env.hasErrors resp s1 = .ret false s2)
      (h2 : env.parseRequest (env.context r) r resp s2 = .ret (req, ctx2) s3)
      (h3 : env.hasErrors resp s3 = .ret false s4)
      (h4 : env.validateRequest ctx2 req resp s4 = .ret ctx4 s5)
      (h5 : env.hasErrors resp s5 = .ret true s6) :
      ShortCircuits env r resp s1 ctx4 s6
        [.hasErrors resp, .parseRequest (env.context r) r resp, .hasErrors resp,
          .validateRequest ctx2 req resp, .hasErrors resp]

/-- Frame `fr2` continues `fr1`: its trace is the trace of `fr1` followed by
calls that all satisfy `p`. -/
def Extends (p : Event Ctx Raw Req R Cookie P W → Bool)
    (fr1 fr2 : Frame σ Ctx Raw Req R Cookie P W) : Prop :=
  ∃ es, fr2.trace = fr1.trace ++ es ∧ ∀ e ∈ es, p e = true

end Dispatcher

/-! ## A scripted endpoint

A small family of concrete endpoints on which the theorems below are
instantiated.  The world is the number of error diagnostics the response holds;
`HasErrors` reports whether there is one. -/

/-- What a scripted call does: add `errs` error diagnostics and return, or
panic with `msg`. -/
inductive Step where
  | ok (errs : Nat)
  | fail (msg : Option Nat)
  deriving DecidableEq, Repr

/-- Run a scripted call that returns `a` when it returns. -/
def Step.run {α : Type} (a : α) : Step → Nat → Outcome Nat Nat α
  | .ok errs, s => .ret a (s + errs)
  | .fail msg, s => .panic msg s

/-- The script of an endpoint: the diagnostics of a fresh response, what each
phase and each method of the response does, and which optional interfaces the
response implements. -/
structure Script where
  created : Nat
  parse : Step
  validate : Step
  execute : Step
  onPanic : Step
  cookies : Option (List Nat)
  target : Option (String × Int)
  onSend : Step

/-- The endpoint a script describes.  Contexts are numbers: the request's own
is 0, and `ParseRequest`, `ValidateRequest` and `ExecuteRequest` return theirs
plus 1, 10 and 100. -/
def Script.env (k : Script) : Env Nat Nat Unit Nat Unit Nat Nat Unit where
  context _ := 0
  newResponse _ _ _ := .ret () k.created
  hasErrors _ s := .ret (decide (0 < s)) s
  send _ _ _ := k.onSend.run ()
  handlePanic _ _ _ := k.onPanic.run ()
  cookieWriter _ := k.cookies.map fun cs s => .ret cs s
  redirecter _ := k.target.map fun t s => .ret t s
  parseRequest ctx _ _ := k.parse.run (7, ctx + 1)
  validateRequest ctx _ _ := k.validate.run (ctx + 10)
  executeRequest ctx _ _ := k.execute.run (ctx + 100)
  setCookie _ _ s := .ret () s
  redirect _ _ _ _ s := .ret () s

/-- An endpoint in the manner of `TestHandler`: nothing adds a diagnostic,
nothing panics, and the response implements neither optional interface. -/
def plain : Script :=
  { created := 0, parse := .ok 0, validate := .ok 0, execute := .ok 0,
    onPanic := .ok 0, cookies := none, target := none, onSend := .ok 0 }

/-- `ParseRequest` adds one error diagnostic. -/
def parseRejects : Script := { plain with parse := .ok 1 }

/-- `ValidateRequest` adds two error diagnostics. -/
def validateRejects : Script := { plain with validate := .ok 2 }

/-- `ValidateRequest` panics with the value 3; the response writes two cookies. -/
def validatePanics : Script :=
  { plain with validate := .fail (some 3), cookies := some [4, 5] }

/-- `ParseRequest` panics with the value 9; the response writes one cookie and
redirects to `/login` with status 302. -/
def redirectAfterPanic : Script :=
  { plain with parse := .fail (some 9), cookies := some [1], target := some ("/login", 302) }

/-- The response is a `Redirecter` that gives the status `code`. -/
def withTarget (code : Int) : Script :=
  { plain with target := some ("/next", code) }

/-- The fresh response holds an error diagnostic already; it writes three
cookies, two of them equal, and redirects to `/home` with status 303. -/
def cookiesThenRedirect : Script :=
  { plain with created := 1, cookies := some [4, 5, 4], target := some ("/home", 303) }

/-- `ParseRequest` panics with the value 1, and then `HandlePanic` panics with
the value 2. -/
def panicInHandlePanic : Script :=
  { plain with parse := .fail (some 1), onPanic := .fail (some 2) }

/-- `ExecuteRequest` panics with the value 1; `HandlePanic` records one error
diagnostic. -/
def executePanics : Script :=
  { plain with execute := .fail (some 1), onPanic := .ok 1 }

/-- The fresh response holds an error diagnostic already and redirects to
`/login` with status 303. -/
def rejectedRedirects : Script :=
  { plain with created := 1, target := some ("/login", 303) }

/-- `ValidateRequest` adds an error diagnostic; the response writes a cookie
and is a `Redirecter` that gives the status 200. -/
def rejectedSends : Script :=
  { plain with validate := .ok 1, cookies := some [8], target := some ("", 200) }

/-- The fresh response holds two error diagnostics already and writes a
cookie. -/
def createdWithErrors : Script :=
  { plain with created := 2, cookies := some [6] }

/-- `ExecuteRequest` panics with the value 5 and `HandlePanic` panics with the
value 6; the response writes a cookie. -/
def doublePanic : Script :=
  { plain with execute := .fail (some 5), onPanic := .fail (some 6), cookies := some [2] }

/-- `ParseRequest` panics with the value 4; the response writes three cookies
and redirects to `/` with status 301. -/
def cookiesAfterPanic : Script :=
  { plain with parse := .fail (some 4), cookies := some [1, 2, 3], target := some ("/", 301) }

/-- The response redirects with status 302 and is a `CookieWriter` whose
`WriteCookies` panics with the value 8. -/
def cookiesPanicThenRedirect : Env Nat Nat Unit Nat Unit Nat Nat Unit :=
  { (withTarget 302).env with cookieWriter := fun _ => some fun s => .panic (some 8) s }

/-- The response is a `Redirecter` that gives the status 404 and a
`CookieWriter` whose `WriteCookies` panics with the value 8. -/
def cookiesPanicThenSend : Env Nat Nat Unit Nat Unit Nat Nat Unit :=
  { (withTarget 404).env with cookieWriter := fun _ => some fun s => .panic (some 8) s }

/-- The response writes the cookies 4, 5, 6 on a writer on which
`http.SetCookie` panics with the value 9 for the cookie 5. -/
def secondCookiePanics : Env Nat Nat Unit Nat Unit Nat Nat Unit :=
  { plain.env with
    cookieWriter := fun _ => some fun s => .ret [4, 5, 6] s
    setCookie := fun _ c s => if c = 5 then .panic (some 9) s else .ret () s }

/-- `ValidateRequest` adds an error diagnostic; the response is a `Redirecter`
whose `RedirectTo` panics with the value 7. -/
def rejectedRedirectToPanics : Env Nat Nat Unit Nat Unit Nat Nat Unit :=
  { validateRejects.env with redirecter := fun _ => some fun s => .panic (some 7) s }

/-! ## The `Response` type of `response_test.go`

`Response`, its factory and its methods, from `response_test.go` and
`json_test.go`.  The packages `apidiags` and `goautoneg` and the type
`testing.T` are not part of the repository: diagnostics are modelled from the
spec, the negotiation function is a parameter of `NewResponse`, and a
`*testing.T` is a handle that may be nil. -/

/-- Modelled from the spec: `apidiags.Severity` is not under `src/`; the spec
gives a diagnostic a severity, error or warning, and the code names the two
values `DiagnosticError` and `DiagnosticWarning`. -/
inductive Severity where
  | DiagnosticError
  | DiagnosticWarning
  deriving DecidableEq, Repr

/-- Modelled from the spec: `apidiags.Code` is not under `src/`; the spec calls
it a code identifying the problem class. -/
abbrev Code := String

/-- Modelled from the spec: `apidiags.Steps` is not under `src/`; the spec calls
it a structural path reference locating the problem within the request. -/
abbrev Steps := List String

/-- Modelled from the spec: `apidiags.Diagnostic` is not under `src/`; these are
the three fields `AddError` and `AddWarning` set. -/
structure Diagnostic where
  Severity : Severity
  Code : Code
  Paths : List Steps
  deriving DecidableEq, Repr

/-- A byte string. -/
abbrev Bytes := List Nat

/-- The struct `Response`.  `E` is the type of the non-nil values of the
interface `encoder` and `T` the type of the non-nil `*testing.T` handles; `none`
is nil. -/
structure Response (E T : Type) where
  t : Option T
  enc : Option E
  status : Int
  Diags : List Diagnostic
  deriving DecidableEq, Repr

/-- The implementations of the interface `encoder`: the two methods of each
value of `E`, and the value `jsonEncoder{}` of `json_test.go`, whose content
type is `application/json`.  An `error` is its message. -/
structure Encoders (E T : Type) where
  encode : E → Response E T → Except String Bytes
  contentType : E → String
  jsonEncoder : E
  jsonContentType : contentType jsonEncoder = "application/json"

/-- The struct `ResponseFactory`. -/
structure ResponseFactory (E T : Type) where
  encoders : List E
  t : Option T

section ResponseModel

variable {E T : Type}

/-- One turn of the loop of `NewResponse`: append the content type of `enc` to
`alts` and set `encTypes[enc.contentType()] = enc`. -/
def register (ops : Encoders E T) (acc : List String × (String → Option E)) (enc : E) :
    List String × (String → Option E) :=
  (acc.1 ++ [ops.contentType enc],
    fun key => if key = ops.contentType enc then some enc else acc.2 key)

/-- The method `ResponseFactory.NewResponse`.  `negotiate` is
`goautoneg.Negotiate` and `accept` is `r.Header.Get("Accept")`. -/
def ResponseFactory.NewResponse (ops : Encoders E T)
    (negotiate : String → List String → String) (rf : ResponseFactory E T)
    (accept : String) : Response E T :=
  let registered := rf.encoders.foldl (register ops) ([], fun _ => none)
  let enc := registered.2 (negotiate accept registered.1)
  let enc := match enc with
    | none => some ops.jsonEncoder
    | some e => some e
  { t := rf.t, enc := enc, status := 0, Diags := [] }

/-- The loop of `Response.HasErrors` over `r.Diags`. -/
def hasErrorIn : List Diagnostic → Bool
  | [] => false
  | diag :: diags =>
    if diag.Severity = Severity.DiagnosticError then true else hasErrorIn diags

/-- The method `Response.HasErrors`. -/
def Response.HasErrors (r : Response E T) : Bool :=
  hasErrorIn r.Diags

/-- The method `Response.SetStatus`. -/
def Response.SetStatus (r : Response E T) (status : Int) : Response E T :=
  { r with status := status }

/-- The method `Response.AddError`. -/
def Response.AddError (r : Response E T) (code : Code) (paths : List Steps) :
    Response E T :=
  { r with Diags := r.Diags ++
      [{ Severity := Severity.DiagnosticError, Code := code, Paths := paths }] }

/-- The method `Response.AddWarning`. -/
def Response.AddWarning (r : Response E T) (code : Code) (paths : List Steps) :
    Response E T :=
  { r with Diags := r.Diags ++
      [{ Severity := Severity.DiagnosticWarning, Code := code, Paths := paths }] }

/-- A call on the `http.ResponseWriter`: `w.Header().Set(key, value)`,
`w.WriteHeader(code)` or `w.Write(body)`. -/
inductive WriterCall where
  | setHeader (key value : String)
  | writeHeader (code : Int)
  | write (body : Bytes)
  deriving DecidableEq, Repr

/-- The methods of the `http.ResponseWriter` given to `Send`, as transitions on
the state `ω` of the writer that return or panic: `w.Header().Set(key, value)`,
`w.WriteHeader(code)` and `w.Write(body)`, whose results `Send` drops. -/
structure Writer (ω : Type) where
  setHeader : String → String → ω → Outcome String ω Unit
  writeHeader : Int → ω → Outcome String ω Unit
  write : Bytes → ω → Outcome String ω Unit

/-- What a `Send` acts on: the state of the writer, the calls made on the
writer so far, in order, and the messages reported to a test with `t.Errorf`. -/
structure Sink (T ω : Type) where
  calls : List WriterCall
  reported : List (T × String)
  writer : ω
  deriving DecidableEq, Repr

/-- The value of the panic Go raises when a method is called through a nil
pointer or a nil interface. -/
def nilDereference : String :=
  "runtime error: invalid memory address or nil pointer dereference"

/-- Make one call on the writer: log it, run it on the state of the writer,
keep the state it leaves. -/
def Sink.call {ω : Type} (k : Sink T ω) (c : WriterCall) (f : ω → Outcome String ω Unit) :
    Outcome String (Sink T ω) Unit :=
  match f k.writer with
  | .ret _ x => .ret () { k with calls := k.calls ++ [c], writer := x }
  | .panic m x => .panic m { k with calls := k.calls ++ [c], writer := x }

/-- The method `Response.Send` on the writer `w`.  Calling `encode` on a nil
`enc`, or `Errorf` on a nil `t`, panics; a panic of a call on the writer ends
`Send` there. -/
def Response.Send {ω : Type} (ops : Encoders E T) (w : Writer ω) (r : Response E T)
    (k : Sink T ω) : Outcome String (Sink T ω) Unit :=
  match r.enc with
  | none => .panic (some nilDereference) k
  | some enc =>
    match ops.encode enc r with
    | .error err =>
      match r.t with
      | none => .panic (some nilDereference) k
      | some t =>
        Sink.call
          { k with reported := k.reported ++
              [(t, "An unexpected error occurred sending the response: " ++ err)] }
          (.writeHeader 500) (w.writeHeader 500)
    | .ok body =>
      match k.call (.setHeader "Content-Type" (ops.contentType enc))
          (w.setHeader "Content-Type" (ops.contentType enc)) with
      | .panic m k1 => .panic m k1
      | .ret _ k1 =>
        match k1.call (.writeHeader r.status) (w.writeHeader r.status) with
        | .panic m k2 => .panic m k2
        | .ret _ k2 => k2.call (.write body) (w.write body)

/-- A phase left the diagnostics of the response as a sequence of calls to
`AddWarning` leaves them. -/
def AddsOnlyWarnings (before after : Response E T) : Prop :=
  ∃ ws : List (Code × List Steps),
    after.Diags = (ws.foldl (fun r cw => r.AddWarning cw.1 cw.2) before).Diags

end ResponseModel

/-! ## Content negotiation

Modelled from the spec: `goautoneg.Negotiate` is a third-party function that is
not under `src/`.  The spec asks for standard HTTP content-negotiation
precedence (quality values, specificity); the definitions below follow it.
Texts are handled as lists of character codes. -/

/-- The character codes of a string. -/
def chars (s : String) : List Nat :=
  s.toList.map Char.toNat

/-- Modelled from the spec: cut a text at every occurrence of `sep`. -/
def splitOnCode (sep : Nat) : List Nat → List (List Nat)
  | [] => [[]]
  | c :: cs =>
    if c = sep then [] :: splitOnCode sep cs
    else
      match splitOnCode sep cs with
      | [] => [[c]]
      | piece :: pieces => (c :: piece) :: pieces

/-- Modelled from the spec: drop the blanks in front of a text. -/
def trimLeft : List Nat → List Nat
  | [] => []
  | c :: cs => if c = 32 then trimLeft cs else c :: cs

/-- Modelled from the spec: drop the blanks around a text. -/
def trim (cs : List Nat) : List Nat :=
  (trimLeft (trimLeft cs).reverse).reverse

/-- Modelled from the spec: one clause of an `Accept` header, a media range
with its quality value in thousandths. -/
structure AcceptClause where
  mediaType : List Nat
  subType : List Nat
  q : Nat
  deriving DecidableEq, Repr

/-- Modelled from the spec: the thousandths given by the digits that follow the
decimal point, `scale` being the worth of the next digit. -/
def fraction : List Nat → Nat → Nat
  | [], _ => 0
  | c :: cs, scale =>
    if 48 ≤ c ∧ c ≤ 57 then (c - 48) * scale + fraction cs (scale / 10) else 0

/-- Modelled from the spec: a quality value, `0`, `1`, `0.ddd` or `1.000`, in
thousandths; a text that is none of these counts as 0. -/
def qualityOf (cs : List Nat) : Nat :=
  match trim cs with
  | [48] => 0
  | [49] => 1000
  | 48 :: 46 :: ds => fraction ds 100
  | 49 :: 46 :: _ => 1000
  | _ => 0

/-- Modelled from the spec: the quality value among the parameters of a clause:
that of the last parameter named `q`, and 1 when there is none. -/
def qualityAmong (params : List (List Nat)) : Nat :=
  params.foldl
    (fun q param =>
      match splitOnCode 61 param with
      | name :: value :: _ => if trim name = [113] then qualityOf value else q
      | _ => q)
    1000

/-- Modelled from the spec: read one clause `type/subtype;params`; a clause
that is no media range is skipped. -/
def parseClause (part : List Nat) : Option AcceptClause :=
  match splitOnCode 59 (trim part) with
  | [] => none
  | range :: params =>
    match splitOnCode 47 range with
    | [t, st] =>
      some { mediaType := trim t, subType := trim st, q := qualityAmong params }
    | [t] =>
      if trim t = [42] then
        some { mediaType := [42], subType := [42], q := qualityAmong params }
      else none
    | _ => none

/-- Modelled from the spec: the number of wildcards of a clause; fewer is more
specific. -/
def AcceptClause.wildcards (c : AcceptClause) : Nat :=
  (if c.mediaType = [42] then 1 else 0) + (if c.subType = [42] then 1 else 0)

/-- Modelled from the spec: `a` has precedence over `b`: a higher quality
value, or the same one and more specific. -/
def AcceptClause.precedes (a b : AcceptClause) : Bool :=
  decide (b.q < a.q) || (decide (a.q = b.q) && decide (a.wildcards < b.wildcards))

/-- Modelled from the spec: put a clause into a list in precedence order,
after the clauses that have precedence over it. -/
def insertClause (a : AcceptClause) : List AcceptClause → List AcceptClause
  | [] => [a]
  | b :: bs => if b.precedes a then b :: insertClause a bs else a :: b :: bs

/-- Modelled from the spec: the clauses of a header in precedence order,
clauses of equal precedence in the order of the header. -/
def parseAccept (header : String) : List AcceptClause :=
  ((splitOnCode 44 (chars header)).filterMap parseClause).foldr insertClause []

/-- Modelled from the spec: a clause accepts an alternative `type/subtype`
when it names it or covers it with a wildcard. -/
def AcceptClause.accepts (c : AcceptClause) (alternative : String) : Bool :=
  match splitOnCode 47 (chars alternative) with
  | [t, st] =>
    (decide (c.mediaType = t) && decide (c.subType = st)) ||
      (decide (c.mediaType = t) && decide (c.subType = [42])) ||
      (decide (c.mediaType = [42]) && decide (c.subType = [42]))
  | _ => false

/-- Modelled from the spec: the first alternative that the first clause
accepting any accepts, and the empty string when no clause accepts one. -/
def negotiateClauses : List AcceptClause → List String → String
  | [], _ => ""
  | c :: cs, alternatives =>
    match alternatives.find? c.accepts with
    | some chosen => chosen
    | none => negotiateClauses cs alternatives

/-- Modelled from the spec: `goautoneg.Negotiate(header, alternatives)`, which
is not under `src/`: the alternative chosen by standard HTTP content
negotiation, and the empty string when none is acceptable. -/
def Negotiate (header : String) (alternatives : List String) : String :=
  negotiateClauses (parseAccept header) alternatives

/-! ## Concrete encoders and a concrete endpoint on `Response` -/

/-- Four encoders, named by numbers: 0 is `jsonEncoder{}`, 1 and 2 are the
encoders A and B of the spec, with content types `text/a` and `text/b`, and
every other number is an encoder whose `encode` returns an error.  An encoded
response is its status followed by the number of its diagnostics. -/
def sampleEncoders : Encoders Nat Unit where
  encode e resp :=
    if e ≤ 2 then .ok [resp.status.toNat, resp.Diags.length] else .error "broken"
  contentType e :=
    if e = 0 then "application/json" else if e = 1 then "text/a"
    else if e = 2 then "text/b" else "text/broken"
  jsonEncoder := 0
  jsonContentType := rfl

/-- The factory of `TestResponse`: no encoders, and a test handle. -/
def testFactory : ResponseFactory Nat Unit :=
  { encoders := [], t := some () }

/-- The factory of the spec's example: the encoders A and B, and no test
handle. -/
def factoryAB : ResponseFactory Nat Unit :=
  { encoders := [1, 2], t := none }

/-- A writer in the manner of those of `net/http` (the server's and
`httptest.ResponseRecorder`): `WriteHeader` panics for a code outside
`100..999`, and every other call returns. -/
def httpWriter : Writer Unit where
  setHeader _ _ x := .ret () x
  writeHeader code x :=
    if code < 100 ∨ 999 < code then .panic (some "invalid WriteHeader code") x
    else .ret () x
  write _ x := .ret () x

/-- A sink on which nothing has been called or reported. -/
def freshSink : Sink Unit Unit :=
  { calls := [], reported := [], writer := () }

/-- The world of `warningEndpoint` before a request: a zero `Response` and a
writer on which nothing has been called. -/
def idle : Response Nat Unit × Sink Unit Unit :=
  ({ t := none, enc := none, status := 0, Diags := [] }, freshSink)

/-- An endpoint on `Response`: the world is the response `NewResponse` made and
the sink; the request is its `Accept` header.  `ParseRequest` adds two warnings,
`ValidateRequest` adds one and sets the status to 202, `ExecuteRequest` sets
the status to 200.  `*Response` is neither a `CookieWriter` nor a
`Redirecter`. -/
def warningEndpoint :
    Env (Response Nat Unit × Sink Unit Unit) Nat String Nat Unit Nat String Unit where
  context _ := 0
  newResponse _ r s := .ret () (factoryAB.NewResponse sampleEncoders Negotiate r, s.2)
  hasErrors _ s := .ret s.1.HasErrors s
  send _ _ _ s :=
    match s.1.Send sampleEncoders httpWriter s.2 with
    | .ret _ k => .ret () (s.1, k)
    | .panic m k => .panic m (s.1, k)
  handlePanic _ _ _ s := .panic (some nilDereference) s
  cookieWriter _ := none
  redirecter _ := none
  parseRequest ctx _ _ s :=
    .ret (7, ctx + 1) ((s.1.AddWarning "deprecated" [["a"]]).AddWarning "slow" [], s.2)
  validateRequest ctx _ _ s :=
    .ret (ctx + 10) (((s.1.AddWarning "unknown-field" [["b", "c"]]).SetStatus 202), s.2)
  executeRequest ctx _ _ s := .ret (ctx + 100) (s.1.SetStatus 200, s.2)
  setCookie _ _ s := .ret () s
  redirect _ _ _ _ s := .ret () s

end Genhttp

namespace Genhttp

section Lemmas

variable {σ Ctx Raw Req R Cookie P W : Type}

theorem Extends.refl (p : Event Ctx Raw Req R Cookie P W → Bool)
    (fr : Frame σ Ctx Raw Req R Cookie P W) : Extends p fr fr :=
  ⟨[], by simp, by simp⟩

theorem Extends.trans {p : Event Ctx Raw Req R Cookie P W → Bool}
    {fr1 fr2 fr3 : Frame σ Ctx Raw Req R Cookie P W}
    (h12 : Extends p fr1 fr2) (h23 : Extends p fr2 fr3) : Extends p fr1 fr3 := by
  obtain ⟨es, he, hp⟩ := h12
  obtain ⟨fs, hf, hq⟩ := h23
  refine ⟨es ++ fs, by rw [hf, he, List.append_assoc], ?_⟩
  intro e hmem
  rcases List.mem_append.mp hmem with h | h
  · exact hp e h
  · exact hq e h

theorem Extends.mono {p q : Event Ctx Raw Req R Cookie P W → Bool}
    {fr1 fr2 : Frame σ Ctx Raw Req R Cookie P W}
    (hpq : ∀ e, p e = true → q e = true) (h : Extends p fr1 fr2) : Extends q fr1 fr2 := by
  obtain ⟨es, he, hp⟩ := h
  exact ⟨es, he, fun e hmem => hpq e (hp e hmem)⟩

/-- Changing the local `ctx` leaves the trace alone. -/
theorem Extends.setCtx {p : Event Ctx Raw Req R Cookie P W → Bool}
    {fr1 fr2 : Frame σ Ctx Raw Req R Cookie P W} (c : Ctx)
    (h : Extends p fr1 fr2) : Extends p fr1 { fr2 with ctx := c } := h

/-- Calls that fail `q` do not show among the calls that satisfy `q`. -/
theorem Extends.filter_eq {p q : Event Ctx Raw Req R Cookie P W → Bool}
    {fr1 fr2 : Frame σ Ctx Raw Req R Cookie P W}
    (hpq : ∀ e, p e = true → q e = false) (h : Extends p fr1 fr2) :
    fr2.trace.filter q = fr1.trace.filter q := by
  obtain ⟨es, he, hp⟩ := h
  rw [he, List.filter_append]
  have : es.filter q = [] := by
    rw [List.filter_eq_nil_iff]
    intro e hmem
    simp [hpq e (hp e hmem)]
  simp [this]

theorem call_ret {α : Type} (ev : Event Ctx Raw Req R Cookie P W) (f : σ → Outcome P σ α)
    (fr : Frame σ Ctx Raw Req R Cookie P W) {a : α} {s : σ} (h : f fr.world = .ret a s) :
    call ev f fr = .ret a { fr with world := s, trace := fr.trace ++ [ev] } := by
  simp [call, h]

theorem call_panic {α : Type} (ev : Event Ctx Raw Req R Cookie P W) (f : σ → Outcome P σ α)
    (fr : Frame σ Ctx Raw Req R Cookie P W) {m : Option P} {s : σ}
    (h : f fr.world = .panic m s) :
    call ev f fr = .panic m { fr with world := s, trace := fr.trace ++ [ev] } := by
  simp [call, h]

theorem call_frame_ctx {α : Type} (ev : Event Ctx Raw Req R Cookie P W)
    (f : σ → Outcome P σ α) (fr : Frame σ Ctx Raw Req R Cookie P W) :
    (call ev f fr).frame.ctx = fr.ctx := by
  unfold call
  split <;> rfl

theorem call_frame_trace {α : Type} (ev : Event Ctx Raw Req R Cookie P W)
    (f : σ → Outcome P σ α) (fr : Frame σ Ctx Raw Req R Cookie P W) :
    (call ev f fr).frame.trace = fr.trace ++ [ev] := by
  unfold call
  split <;> rfl

theorem call_extends {α : Type} {p : Event Ctx Raw Req R Cookie P W → Bool}
    (ev : Event Ctx Raw Req R Cookie P W) (hev : p ev = true)
    (f : σ → Outcome P σ α) (fr : Frame σ Ctx Raw Req R Cookie P W) :
    Extends p fr (call ev f fr).frame :=
  ⟨[ev], call_frame_trace ev f fr, by simpa using hev⟩

theorem setCookies_ctx (env : Env σ Ctx Raw Req R Cookie P W) (w : W) (cs : List Cookie)
    (fr : Frame σ Ctx Raw Req R Cookie P W) :
    (setCookies env w cs fr).frame.ctx = fr.ctx := by
  induction cs generalizing fr with
  | nil => rfl
  | cons c cs ih =>
    unfold setCookies
    cases h : env.setCookie w c fr.world with
    | ret a s => rw [call_ret _ _ _ h]; exact ih _
    | panic m s => rw [call_panic _ _ _ h]; rfl

/-- The cookie loop calls `http.SetCookie` on a prefix of the list, in order,
and makes no other call. -/
theorem setCookies_trace_prefix (env : Env σ Ctx Raw Req R Cookie P W) (w : W)
    (cs : List Cookie) (fr : Frame σ Ctx Raw Req R Cookie P W) :
    ∃ ds, ds <+: cs ∧
      (setCookies env w cs fr).frame.trace = fr.trace ++ ds.map (Event.setCookie w) := by
  induction cs generalizing fr with
  | nil => exact ⟨[], List.prefix_refl _, by simp [setCookies, Outcome.frame]⟩
  | cons c cs ih =>
    unfold setCookies
    cases h : env.setCookie w c fr.world with
    | ret a s =>
      rw [call_ret _ _ _ h]
      obtain ⟨ds, hpre, htr⟩ := ih { fr with world := s, trace := fr.trace ++ [.setCookie w c] }
      refine ⟨c :: ds, List.cons_prefix_cons.mpr ⟨rfl, hpre⟩, ?_⟩
      simp only [htr, List.map_cons, List.append_assoc, List.singleton_append]
    | panic m s =>
      rw [call_panic _ _ _ h]
      exact ⟨[c], by simp, by simp [Outcome.frame]⟩

/-- When the cookie loop returns, it has called `http.SetCookie` once for each
cookie of the list, in order. -/
theorem setCookies_trace_of_ret (env : Env σ Ctx Raw Req R Cookie P W) (w : W)
    (cs : List Cookie) (fr fr1 : Frame σ Ctx Raw Req R Cookie P W)
    (h : setCookies env w cs fr = .ret () fr1) :
    fr1.trace = fr.trace ++ cs.map (Event.setCookie w) := by
  induction cs generalizing fr with
  | nil =>
    simp only [setCookies, Outcome.ret.injEq, true_and] at h
    simp [← h]
  | cons c cs ih =>
    unfold setCookies at h
    cases hc : env.setCookie w c fr.world with
    | ret a s =>
      rw [call_ret _ _ _ hc] at h
      rw [ih _ h]
      simp
    | panic m s =>
      rw [call_panic _ _ _ hc] at h
      simp at h

theorem setCookies_extends (env : Env σ Ctx Raw Req R Cookie P W) (w : W)
    (cs : List Cookie) (fr : Frame σ Ctx Raw Req R Cookie P W) :
    Extends (fun e => (Event.cookie? e).isSome) fr (setCookies env w cs fr).frame := by
  obtain ⟨ds, _, htr⟩ := setCookies_trace_prefix env w cs fr
  refine ⟨_, htr, ?_⟩
  intro e hmem
  obtain ⟨c, _, rfl⟩ := List.mem_map.mp hmem
  rfl

/-- The statements after the `defer`s call only the phases and `HasErrors`. -/
theorem body_extends (env : Env σ Ctx Raw Req R Cookie P W) (r : Raw) (resp : R)
    (fr : Frame σ Ctx Raw Req R Cookie P W) :
    Extends Event.isPipeline fr (body env r resp fr).frame := by
  unfold body
  have e1 := call_extends (p := Event.isPipeline) (.hasErrors resp) rfl (env.hasErrors resp) fr
  generalize call (.hasErrors resp) (env.hasErrors resp) fr = o1 at e1 ⊢
  match o1 with
  | .panic m fr1 => exact e1
  | .ret true fr1 => exact e1
  | .ret false fr1 =>
    dsimp only
    have e2 := call_extends (p := Event.isPipeline) (.parseRequest fr1.ctx r resp) rfl
      (env.parseRequest fr1.ctx r resp) fr1
    generalize call (.parseRequest fr1.ctx r resp) (env.parseRequest fr1.ctx r resp) fr1 = o2
      at e2 ⊢
    match o2 with
    | .panic m fr2 => exact e1.trans e2
    | .ret (req, ctx2) fr2 =>
      dsimp only
      have e12 : Extends Event.isPipeline fr { fr2 with ctx := ctx2 } := e1.trans e2
      have e3 := call_extends (p := Event.isPipeline) (.hasErrors resp) rfl
        (env.hasErrors resp) { fr2 with ctx := ctx2 }
      generalize call (.hasErrors resp) (env.hasErrors resp) { fr2 with ctx := ctx2 } = o3
        at e3 ⊢
      match o3 with
      | .panic m fr3 => exact e12.trans e3
      | .ret true fr3 => exact e12.trans e3
      | .ret false fr3 =>
        dsimp only
        have e4 := call_extends (p := Event.isPipeline) (.validateRequest fr3.ctx req resp) rfl
          (env.validateRequest fr3.ctx req resp) fr3
        generalize call (.validateRequest fr3.ctx req resp)
          (env.validateRequest fr3.ctx req resp) fr3 = o4 at e4 ⊢
        match o4 with
        | .panic m fr4 => exact (e12.trans e3).trans e4
        | .ret ctx4 fr4 =>
          dsimp only
          have e14 : Extends Event.isPipeline fr { fr4 with ctx := ctx4 } :=
            (e12.trans e3).trans e4
          have e5 := call_extends (p := Event.isPipeline) (.hasErrors resp) rfl
            (env.hasErrors resp) { fr4 with ctx := ctx4 }
          generalize call (.hasErrors resp) (env.hasErrors resp) { fr4 with ctx := ctx4 } = o5
            at e5 ⊢
          match o5 with
          | .panic m fr5 => exact e14.trans e5
          | .ret true fr5 => exact e14.trans e5
          | .ret false fr5 =>
            dsimp only
            have e6 := call_extends (p := Event.isPipeline)
              (.executeRequest fr5.ctx req resp) rfl (env.executeRequest fr5.ctx req resp) fr5
            generalize call (.executeRequest fr5.ctx req resp)
              (env.executeRequest fr5.ctx req resp) fr5 = o6 at e6 ⊢
            match o6 with
            | .panic m fr6 => exact (e14.trans e5).trans e6
            | .ret ctx6 fr6 => exact (e14.trans e5).trans e6

theorem writeCookies_ctx (env : Env σ Ctx Raw Req R Cookie P W) (w : W) (resp : R)
    (fr : Frame σ Ctx Raw Req R Cookie P W) :
    (writeCookies env w resp fr).frame.ctx = fr.ctx := by
  unfold writeCookies
  cases env.cookieWriter resp with
  | none => rfl
  | some getCookies =>
    dsimp only
    cases h : getCookies fr.world with
    | ret cs s => rw [call_ret _ _ _ h]; exact setCookies_ctx env w cs _
    | panic m s => rw [call_panic _ _ _ h]; rfl

/-- The cookie half of the finalization calls only `WriteCookies` and
`http.SetCookie`. -/
theorem writeCookies_extends (env : Env σ Ctx Raw Req R Cookie P W) (w : W) (resp : R)
    (fr : Frame σ Ctx Raw Req R Cookie P W) :
    Extends Event.isCookieWriting fr (writeCookies env w resp fr).frame := by
  unfold writeCookies
  cases env.cookieWriter resp with
  | none => exact Extends.refl _ _
  | some getCookies =>
    dsimp only
    have e1 := call_extends (p := Event.isCookieWriting) (.writeCookies resp) rfl getCookies fr
    generalize call (.writeCookies resp) getCookies fr = o1 at e1 ⊢
    match o1 with
    | .panic m fr1 => exact e1
    | .ret cs fr1 =>
      dsimp only
      refine e1.trans (Extends.mono ?_ (setCookies_extends env w cs fr1))
      intro e he
      cases e <;> simp_all [Event.cookie?, Event.isCookieWriting]

/-- When the response is a `CookieWriter` whose `WriteCookies` returns `cs` and
the cookie half returns, its calls are `WriteCookies` and then `http.SetCookie`
once for each cookie of `cs`, in order. -/
theorem writeCookies_trace_of_ret (env : Env σ Ctx Raw Req R Cookie P W) (w : W) (resp : R)
    (fr frC : Frame σ Ctx Raw Req R Cookie P W)
    (getCookies : σ → Outcome P σ (List Cookie)) (cs : List Cookie) (s2 : σ)
    (hcw : env.cookieWriter resp = some getCookies)
    (hget : getCookies fr.world = .ret cs s2)
    (hret : writeCookies env w resp fr = .ret () frC) :
    frC.trace = fr.trace ++ .writeCookies resp :: cs.map (Event.setCookie w) := by
  unfold writeCookies at hret
  rw [hcw] at hret
  dsimp only at hret
  rw [call_ret _ _ _ hget] at hret
  rw [setCookies_trace_of_ret env w cs _ frC hret]
  simp

theorem redirectOrSend_extends (env : Env σ Ctx Raw Req R Cookie P W) (w : W) (r : Raw)
    (resp : R) (fr : Frame σ Ctx Raw Req R Cookie P W) :
    Extends Event.isRedirectOrSend fr (redirectOrSend env w r resp fr).frame := by
  unfold redirectOrSend
  cases env.redirecter resp with
  | none => exact call_extends _ rfl _ _
  | some redirectTo =>
    dsimp only
    have e1 := call_extends (p := Event.isRedirectOrSend) (.redirectTo resp) rfl redirectTo fr
    generalize call (.redirectTo resp) redirectTo fr = o1 at e1 ⊢
    match o1 with
    | .panic m fr1 => exact e1
    | .ret (url, code) fr1 =>
      dsimp only
      split
      · exact e1.trans (call_extends _ rfl _ _)
      · exact e1.trans (call_extends _ rfl _ _)

/-- The deferred finalization makes only finalization calls. -/
theorem finalize_extends (env : Env σ Ctx Raw Req R Cookie P W) (w : W) (r : Raw)
    (resp : R) (fr : Frame σ Ctx Raw Req R Cookie P W) :
    Extends Event.isFinalization fr (finalize env w r resp fr).frame := by
  unfold finalize
  have e1 : Extends Event.isFinalization fr (writeCookies env w resp fr).frame := by
    refine Extends.mono ?_ (writeCookies_extends env w resp fr)
    intro e he
    cases e <;> simp_all [Event.isFinalization, Event.isCookieWriting]
  generalize writeCookies env w resp fr = o1 at e1 ⊢
  match o1 with
  | .panic m fr1 => exact e1
  | .ret _ fr1 =>
    refine e1.trans (Extends.mono ?_ (redirectOrSend_extends env w r resp fr1))
    intro e he
    cases e <;> simp_all [Event.isFinalization, Event.isRedirectOrSend]

/-- The panic guard calls nothing but `HandlePanic`. -/
theorem panicGuard_extends (env : Env σ Ctx Raw Req R Cookie P W) (resp : R)
    (o : Outcome P (Frame σ Ctx Raw Req R Cookie P W) Unit) :
    Extends Event.isHandlePanic o.frame (panicGuard env resp o).frame := by
  match o with
  | .ret _ fr => exact Extends.refl _ _
  | .panic none fr => exact Extends.refl _ _
  | .panic (some msg) fr => exact call_extends _ rfl _ _

/-- Before the finalization starts, no finalization call has been made. -/
theorem exitFrame_extends (env : Env σ Ctx Raw Req R Cookie P W) (r : Raw) (resp : R)
    (s1 : σ) :
    Extends (fun e => !e.isFinalization)
      { world := s1, ctx := env.context r, trace := [.newResponse (env.context r) r] }
      (exitFrame env r resp s1) := by
  unfold exitFrame
  refine Extends.trans (Extends.mono ?_ (body_extends env r resp _))
    (Extends.mono ?_ (panicGuard_extends env resp _))
  · intro e he
    cases e <;> simp_all [Event.isFinalization, Event.isPipeline]
  · intro e he
    cases e <;> simp_all [Event.isFinalization, Event.isHandlePanic]

theorem runDeferred_frame (d : Exec σ Ctx Raw Req R Cookie P W Unit)
    (o : Outcome P (Frame σ Ctx Raw Req R Cookie P W) Unit) :
    (runDeferred d o).frame = (d o.frame).frame := by
  match o with
  | .ret _ fr => rfl
  | .panic m fr =>
    show (runDeferred d (.panic m fr)).frame = (d fr).frame
    simp only [runDeferred]
    cases d fr <;> rfl

/-- Once `NewResponse` has returned, the handler is the statements after the
`defer`s, then the panic guard, then the finalization. -/
theorem Handle_of_newResponse (env : Env σ Ctx Raw Req R Cookie P W) (w : W) (r : Raw)
    (s s1 : σ) (resp : R)
    (hnew : env.newResponse (env.context r) r s = .ret resp s1) :
    Handle env w r s = runDeferred (finalize env w r resp)
      (panicGuard env resp (body env r resp
        { world := s1, ctx := env.context r,
          trace := [.newResponse (env.context r) r] })) := by
  simp [Handle, call, hnew]

/-- Whatever happened before, the frame the handler leaves is the one the
finalization leaves when started in the exit frame. -/
theorem Handle_frame (env : Env σ Ctx Raw Req R Cookie P W) (w : W) (r : Raw)
    (s s1 : σ) (resp : R)
    (hnew : env.newResponse (env.context r) r s = .ret resp s1) :
    (Handle env w r s).frame = (finalize env w r resp (exitFrame env r resp s1)).frame := by
  rw [Handle_of_newResponse env w r s s1 resp hnew, runDeferred_frame]
  rfl

/-- A phase that panics makes the statements after the `defer`s panic with the
same value, the local `ctx` being the one returned by the last completed phase. -/
theorem body_of_phasePanics (env : Env σ Ctx Raw Req R Cookie P W) (r : Raw) (resp : R)
    (s1 sP : σ) (v : P) (ctxP : Ctx) (T T0 : List (Event Ctx Raw Req R Cookie P W))
    (h : PhasePanics env r resp s1 v ctxP sP T) :
    body env r resp { world := s1, ctx := env.context r, trace := T0 } =
      .panic (some v) { world := sP, ctx := ctxP, trace := T0 ++ T } := by
  cases h with
  | parse _ _ h1 h2 => simp [body, call, h1, h2]
  | validate _ _ _ _ _ _ h1 h2 h3 h4 => simp [body, call, h1, h2, h3, h4]
  | execute _ _ _ _ _ _ _ _ _ h1 h2 h3 h4 h5 h6 =>
    simp [body, call, h1, h2, h3, h4, h5, h6]

/-- A `HasErrors` check that returns true makes the statements after the
`defer`s return at once. -/
theorem body_of_shortCircuits (env : Env σ Ctx Raw Req R Cookie P W) (r : Raw) (resp : R)
    (s1 sT : σ) (ctxT : Ctx) (T T0 : List (Event Ctx Raw Req R Cookie P W))
    (h : ShortCircuits env r resp s1 ctxT sT T) :
    body env r resp { world := s1, ctx := env.context r, trace := T0 } =
      .ret () { world := sT, ctx := ctxT, trace := T0 ++ T } := by
  cases h with
  | created _ h1 => simp [body, call, h1]
  | parsed _ _ _ _ _ h1 h2 h3 => simp [body, call, h1, h2, h3]
  | validated _ _ _ _ _ _ _ _ h1 h2 h3 h4 h5 =>
    simp [body, call, h1, h2, h3, h4, h5]

/-- When the statements after the `defer`s return, the handler is the
finalization run in the frame they left. -/
theorem Handle_of_body_ret (env : Env σ Ctx Raw Req R Cookie P W) (w : W) (r : Raw)
    (s s1 : σ) (resp : R) (fr : Frame σ Ctx Raw Req R Cookie P W)
    (hnew : env.newResponse (env.context r) r s = .ret resp s1)
    (hbody : body env r resp
      { world := s1, ctx := env.context r,
        trace := [.newResponse (env.context r) r] } = .ret () fr) :
    Handle env w r s = finalize env w r resp fr := by
  rw [Handle_of_newResponse env w r s s1 resp hnew, hbody]
  rfl

/-- The calls of the finalization come last in the trace of the handler. -/
theorem Handle_trace_of_finalize (env : Env σ Ctx Raw Req R Cookie P W) (w : W) (r : Raw)
    (s : σ) (resp : R) (fr : Frame σ Ctx Raw Req R Cookie P W)
    (h : Handle env w r s = finalize env w r resp fr) :
    ∃ es, (Handle env w r s).frame.trace = fr.trace ++ es ∧
      ∀ e ∈ es, e.isFinalization = true := by
  rw [h]
  exact finalize_extends env w r resp fr

/-- The trace of the finalization when the cookie half returns and the response
is a `Redirecter` whose `RedirectTo` returns `(url, code)`: the cookie calls,
`RedirectTo`, and then `http.Redirect` for a 3xx code, `Send` for any other. -/
theorem finalize_trace_of_redirecter (env : Env σ Ctx Raw Req R Cookie P W) (w : W)
    (r : Raw) (resp : R) (fr frC : Frame σ Ctx Raw Req R Cookie P W)
    (redirectTo : σ → Outcome P σ (String × Int)) (url : String) (code : Int) (s2 : σ)
    (hck : writeCookies env w resp fr = .ret () frC)
    (hred : env.redirecter resp = some redirectTo)
    (hrt : redirectTo frC.world = .ret (url, code) s2) :
    (finalize env w r resp fr).frame.trace = frC.trace ++
      [.redirectTo resp,
        if 300 ≤ code ∧ code < 400 then .redirect w r url code else .send resp fr.ctx w] := by
  have hctx : frC.ctx = fr.ctx := by
    have := writeCookies_ctx env w resp fr
    rw [hck] at this
    exact this
  unfold finalize
  rw [hck]
  dsimp only
  unfold redirectOrSend
  rw [hred]
  dsimp only
  rw [call_ret _ _ _ hrt]
  dsimp only
  by_cases hc : 300 ≤ code ∧ code < 400
  · have hc2 : code ≥ 300 ∧ code < 400 := hc
    rw [if_pos hc2, if_pos hc, call_frame_trace]
    simp
  · have hc2 : ¬ (code ≥ 300 ∧ code < 400) := hc
    rw [if_neg hc2, if_neg hc, call_frame_trace, hctx]
    simp

/-- The trace of the finalization when the cookie half returns and the response
is no `Redirecter`: the cookie calls, then `Send`. -/
theorem finalize_trace_of_no_redirecter (env : Env σ Ctx Raw Req R Cookie P W) (w : W)
    (r : Raw) (resp : R) (fr frC : Frame σ Ctx Raw Req R Cookie P W)
    (hck : writeCookies env w resp fr = .ret () frC)
    (hred : env.redirecter resp = none) :
    (finalize env w r resp fr).frame.trace = frC.trace ++ [.send resp fr.ctx w] := by
  have hctx : frC.ctx = fr.ctx := by
    have := writeCookies_ctx env w resp fr
    rw [hck] at this
    exact this
  unfold finalize
  rw [hck]
  dsimp only
  unfold redirectOrSend
  rw [hred]
  dsimp only
  rw [call_frame_trace, hctx]

/-- Neither `http.Redirect` nor `Send` is called before the second half of the
finalization: not before the exit frame, and not by the cookie half. -/
theorem no_terminal_before_redirectOrSend (env : Env σ Ctx Raw Req R Cookie P W) (w : W)
    (r : Raw) (resp : R) (s1 : σ) (frC : Frame σ Ctx Raw Req R Cookie P W)
    (hck : writeCookies env w resp (exitFrame env r resp s1) = .ret () frC) :
    frC.trace.filter Event.isTerminal = [] := by
  have h1 := Extends.filter_eq (q := Event.isTerminal)
    (fun e he => by cases e <;> simp_all [Event.isFinalization, Event.isTerminal])
    (exitFrame_extends env r resp s1)
  have h2 := Extends.filter_eq (q := Event.isTerminal)
    (fun e he => by cases e <;> simp_all [Event.isCookieWriting, Event.isTerminal])
    (writeCookies_extends env w resp (exitFrame env r resp s1))
  rw [hck] at h2
  have h3 : frC.trace.filter Event.isTerminal =
      (exitFrame env r resp s1).trace.filter Event.isTerminal := h2
  rw [h3, h1]
  simp [List.filter, Event.isTerminal]

theorem finalize_of_writeCookies_ret (env : Env σ Ctx Raw Req R Cookie P W) (w : W)
    (r : Raw) (resp : R) (fr frC : Frame σ Ctx Raw Req R Cookie P W)
    (hck : writeCookies env w resp fr = .ret () frC) :
    finalize env w r resp fr = redirectOrSend env w r resp frC := by
  simp [finalize, hck]

/-- After a `HasErrors` check that returns true the panic guard has nothing to
recover: the finalization starts in the frame the check left. -/
theorem exitFrame_of_shortCircuits (env : Env σ Ctx Raw Req R Cookie P W) (r : Raw)
    (resp : R) (s1 sT : σ) (ctxT : Ctx) (T : List (Event Ctx Raw Req R Cookie P W))
    (h : ShortCircuits env r resp s1 ctxT sT T) :
    exitFrame env r resp s1 =
      { world := sT, ctx := ctxT, trace := .newResponse (env.context r) r :: T } := by
  unfold exitFrame
  rw [body_of_shortCircuits env r resp s1 sT ctxT T _ h]
  rfl

/-- When no check stops the run and no phase panics, the statements after the
`defer`s call the three phases in order, each with the context the one before
it returned. -/
theorem body_of_all_phases (env : Env σ Ctx Raw Req R Cookie P W) (r : Raw) (resp : R)
    (s1 s2 s3 s4 s5 s6 s7 : σ) (req : Req) (ctx2 ctx4 ctx6 : Ctx)
    (T0 : List (Event Ctx Raw Req R Cookie P W))
    (h1 : env.hasErrors resp s1 = .ret false s2)
    (h2 : env.parseRequest (env.context r) r resp s2 = .ret (req, ctx2) s3)
    (h3 : env.hasErrors resp s3 = .ret false s4)
    (h4 : env.validateRequest ctx2 req resp s4 = .ret ctx4 s5)
    (h5 : env.hasErrors resp s5 = .ret false s6)
    (h6 : env.executeRequest ctx4 req resp s6 = .ret ctx6 s7) :
    body env r resp { world := s1, ctx := env.context r, trace := T0 } =
      .ret () { world := s7, ctx := ctx6,
                trace := T0 ++ [.hasErrors resp, .parseRequest (env.context r) r resp,
                  .hasErrors resp, .validateRequest ctx2 req resp, .hasErrors resp,
                  .executeRequest ctx4 req resp] } := by
  simp [body, call, h1, h2, h3, h4, h5, h6]

/-- When the finalization returns, the cookie half returned, and the run has
exactly one answering call, made last: `http.Redirect` or `Send`. -/
theorem finalize_ret_terminal (env : Env σ Ctx Raw Req R Cookie P W) (w : W) (r : Raw)
    (resp : R) (fr frF : Frame σ Ctx Raw Req R Cookie P W)
    (hfinal : finalize env w r resp fr = .ret () frF) :
    ∃ frC, writeCookies env w resp fr = .ret () frC ∧
      ((∃ url code, (finalize env w r resp fr).frame.trace =
          frC.trace ++ [.redirectTo resp, .redirect w r url code]) ∨
        (finalize env w r resp fr).frame.trace =
          frC.trace ++ [.redirectTo resp, .send resp fr.ctx w] ∨
        (finalize env w r resp fr).frame.trace = frC.trace ++ [.send resp fr.ctx w]) := by
  cases hck : writeCookies env w resp fr with
  | panic m frC => simp [finalize, hck] at hfinal
  | ret u frC =>
    refine ⟨frC, rfl, ?_⟩
    cases hred : env.redirecter resp with
    | none =>
      exact Or.inr (Or.inr (finalize_trace_of_no_redirecter env w r resp fr frC hck hred))
    | some redirectTo =>
      cases hrt : redirectTo frC.world with
      | panic m s2 => simp [finalize, hck, redirectOrSend, hred, call, hrt] at hfinal
      | ret a s2 =>
        obtain ⟨url, code⟩ := a
        have htr := finalize_trace_of_redirecter env w r resp fr frC redirectTo url code s2
          hck hred hrt
        by_cases hc : 300 ≤ code ∧ code < 400
        · rw [if_pos hc] at htr
          exact Or.inl ⟨url, code, htr⟩
        · rw [if_neg hc] at htr
          exact Or.inr (Or.inl htr)

/-- The calls of the factory, of `HasErrors` and of the phases in the trace of
the handler are the trace of the statements after the `defer`s: the guard and
the finalization add none. -/
theorem Handle_mainCalls (env : Env σ Ctx Raw Req R Cookie P W) (w : W) (r : Raw)
    (s s1 : σ) (resp : R)
    (hnew : env.newResponse (env.context r) r s = .ret resp s1) :
    (Handle env w r s).frame.trace.filter Event.isMainCall =
      (body env r resp
        { world := s1, ctx := env.context r,
          trace := [.newResponse (env.context r) r] }).frame.trace := by
  rw [Handle_frame env w r s s1 resp hnew]
  have h1 := Extends.filter_eq (q := Event.isMainCall)
    (fun e he => by cases e <;> simp_all [Event.isFinalization, Event.isMainCall])
    (finalize_extends env w r resp (exitFrame env r resp s1))
  have h2 := Extends.filter_eq (q := Event.isMainCall)
    (fun e he => by cases e <;> simp_all [Event.isHandlePanic, Event.isMainCall])
    (panicGuard_extends env resp (body env r resp
      { world := s1, ctx := env.context r, trace := [.newResponse (env.context r) r] }))
  obtain ⟨es, he, hes⟩ := body_extends env r resp
    { world := s1, ctx := env.context r, trace := [.newResponse (env.context r) r] }
  rw [h1]
  unfold exitFrame
  rw [h2, List.filter_eq_self]
  intro e hmem
  rw [he] at hmem
  rcases List.mem_append.mp hmem with h | h
  · simp at h
    subst h
    rfl
  · have := hes e h
    cases e <;> simp_all [Event.isPipeline, Event.isMainCall]

/-- When `ExecuteRequest` is reached, the statements after the `defer`s make
these calls and no other, whether `ExecuteRequest` returns or panics. -/
theorem body_trace_of_execute (env : Env σ Ctx Raw Req R Cookie P W) (r : Raw) (resp : R)
    (s1 s2 s3 s4 s5 s6 : σ) (req : Req) (ctx2 ctx4 : Ctx)
    (T0 : List (Event Ctx Raw Req R Cookie P W))
    (h1 : env.hasErrors resp s1 = .ret false s2)
    (h2 : env.parseRequest (env.context r) r resp s2 = .ret (req, ctx2) s3)
    (h3 : env.hasErrors resp s3 = .ret false s4)
    (h4 : env.validateRequest ctx2 req resp s4 = .ret ctx4 s5)
    (h5 : env.hasErrors resp s5 = .ret false s6) :
    (body env r resp { world := s1, ctx := env.context r, trace := T0 }).frame.trace =
      T0 ++ [.hasErrors resp, .parseRequest (env.context r) r resp, .hasErrors resp,
        .validateRequest ctx2 req resp, .hasErrors resp, .executeRequest ctx4 req resp] := by
  cases h6 : env.executeRequest ctx4 req resp s6 <;>
    simp [body, call, h1, h2, h3, h4, h5, h6, Outcome.frame]

/-- When `ValidateRequest` is reached, the statements after the `defer`s start
with these calls. -/
theorem body_trace_of_validate (env : Env σ Ctx Raw Req R Cookie P W) (r : Raw) (resp : R)
    (s1 s2 s3 s4 : σ) (req : Req) (ctx2 : Ctx)
    (T0 : List (Event Ctx Raw Req R Cookie P W))
    (h1 : env.hasErrors resp s1 = .ret false s2)
    (h2 : env.parseRequest (env.context r) r resp s2 = .ret (req, ctx2) s3)
    (h3 : env.hasErrors resp s3 = .ret false s4) :
    T0 ++ [.hasErrors resp, .parseRequest (env.context r) r resp, .hasErrors resp,
        .validateRequest ctx2 req resp] <+:
      (body env r resp { world := s1, ctx := env.context r, trace := T0 }).frame.trace := by
  cases h4 : env.validateRequest ctx2 req resp s4 with
  | panic m sP => simp [body, call, h1, h2, h3, h4, Outcome.frame]
  | ret ctx4 s5 =>
    cases h5 : env.hasErrors resp s5 with
    | panic m sP => simp [body, call, h1, h2, h3, h4, h5, Outcome.frame]
    | ret b s6 =>
      cases b with
      | true => simp [body, call, h1, h2, h3, h4, h5, Outcome.frame]
      | false =>
        rw [body_trace_of_execute env r resp s1 s2 s3 s4 s5 s6 req ctx2 ctx4 T0 h1 h2 h3 h4 h5]
        simp

/-- When `ParseRequest` is reached, the statements after the `defer`s start
with these calls. -/
theorem body_trace_of_parse (env : Env σ Ctx Raw Req R Cookie P W) (r : Raw) (resp : R)
    (s1 s2 : σ) (T0 : List (Event Ctx Raw Req R Cookie P W))
    (h1 : env.hasErrors resp s1 = .ret false s2) :
    T0 ++ [.hasErrors resp, .parseRequest (env.context r) r resp] <+:
      (body env r resp { world := s1, ctx := env.context r, trace := T0 }).frame.trace := by
  cases h2 : env.parseRequest (env.context r) r resp s2 with
  | panic m sP => simp [body, call, h1, h2, Outcome.frame]
  | ret a s3 =>
    obtain ⟨req, ctx2⟩ := a
    cases h3 : env.hasErrors resp s3 with
    | panic m sP => simp [body, call, h1, h2, h3, Outcome.frame]
    | ret b s4 =>
      cases b with
      | true => simp [body, call, h1, h2, h3, Outcome.frame]
      | false =>
        refine List.IsPrefix.trans ?_
          (body_trace_of_validate env r resp s1 s2 s3 s4 req ctx2 T0 h1 h2 h3)
        simp

/-- The calls of the cookie half: none when the response is no `CookieWriter`;
otherwise `WriteCookies`, followed, when it returns `cs`, by `http.SetCookie`
on the entries of `cs` in order, as far as the loop gets. -/
theorem writeCookies_trace_shape (env : Env σ Ctx Raw Req R Cookie P W) (w : W) (resp : R)
    (fr : Frame σ Ctx Raw Req R Cookie P W) :
    ∃ B, (writeCookies env w resp fr).frame.trace = fr.trace ++ B ∧
      (∀ e ∈ B, e.isCookieWriting = true) ∧
      ∀ getCookies cs s2, env.cookieWriter resp = some getCookies →
        getCookies fr.world = .ret cs s2 →
        ∃ ds, ds <+: cs ∧ B = .writeCookies resp :: ds.map (Event.setCookie w) := by
  obtain ⟨B, hB, hall⟩ := writeCookies_extends env w resp fr
  refine ⟨B, hB, hall, ?_⟩
  intro getCookies cs s2 hcw hget
  have htr : (writeCookies env w resp fr).frame.trace =
      (setCookies env w cs
        { fr with world := s2, trace := fr.trace ++ [.writeCookies resp] }).frame.trace := by
    unfold writeCookies
    rw [hcw]
    dsimp only
    rw [call_ret _ _ _ hget]
  obtain ⟨ds, hpre, hds⟩ := setCookies_trace_prefix env w cs
    { fr with world := s2, trace := fr.trace ++ [.writeCookies resp] }
  refine ⟨ds, hpre, ?_⟩
  rw [htr, hds] at hB
  simp only [List.append_assoc, List.singleton_append] at hB
  exact (List.append_cancel_left hB).symm

/-- The only `Send` the second half of the finalization can make is
`Send(ctx, w)` with the local `ctx` of that moment. -/
theorem redirectOrSend_send (env : Env σ Ctx Raw Req R Cookie P W) (w : W) (r : Raw)
    (resp : R) (fr : Frame σ Ctx Raw Req R Cookie P W) :
    ∃ C, (redirectOrSend env w r resp fr).frame.trace = fr.trace ++ C ∧
      (∀ e ∈ C, e.isRedirectOrSend = true) ∧
      ∀ e ∈ C, e.isSend = true → e = .send resp fr.ctx w := by
  unfold redirectOrSend
  cases env.redirecter resp with
  | none =>
    dsimp only
    exact ⟨[.send resp fr.ctx w], call_frame_trace _ _ _, by simp [Event.isRedirectOrSend],
      by simp⟩
  | some redirectTo =>
    dsimp only
    cases hrt : redirectTo fr.world with
    | panic m s2 =>
      rw [call_panic _ _ _ hrt]
      exact ⟨[.redirectTo resp], rfl, by simp [Event.isRedirectOrSend],
        by simp [Event.isSend]⟩
    | ret a s2 =>
      obtain ⟨url, code⟩ := a
      rw [call_ret _ _ _ hrt]
      dsimp only
      split
      · refine ⟨[.redirectTo resp, .redirect w r url code], ?_, ?_, ?_⟩
        · rw [call_frame_trace]; simp
        · simp [Event.isRedirectOrSend]
        · simp [Event.isSend]
      · refine ⟨[.redirectTo resp, .send resp fr.ctx w], ?_, ?_, ?_⟩
        · rw [call_frame_trace]; simp
        · simp [Event.isRedirectOrSend]
        · simp [Event.isSend]

/-- The finalization is the calls of the cookie half followed by the calls of
the second half. -/
theorem finalize_trace_shape (env : Env σ Ctx Raw Req R Cookie P W) (w : W) (r : Raw)
    (resp : R) (fr : Frame σ Ctx Raw Req R Cookie P W) :
    ∃ B C, (finalize env w r resp fr).frame.trace = fr.trace ++ B ++ C ∧
      (∀ e ∈ B, e.isCookieWriting = true) ∧
      (∀ e ∈ C, e.isRedirectOrSend = true) ∧
      (∀ e ∈ C, e.isSend = true → e = .send resp fr.ctx w) ∧
      ∀ getCookies cs s2, env.cookieWriter resp = some getCookies →
        getCookies fr.world = .ret cs s2 →
        ∃ ds, ds <+: cs ∧ B = .writeCookies resp :: ds.map (Event.setCookie w) := by
  obtain ⟨B, hB, hall, hshape⟩ := writeCookies_trace_shape env w resp fr
  have hctx := writeCookies_ctx env w resp fr
  unfold finalize
  generalize writeCookies env w resp fr = o at hB hctx ⊢
  match o with
  | .panic m fr1 =>
    exact ⟨B, [], by simpa using hB, hall, by simp, by simp, hshape⟩
  | .ret _ fr1 =>
    dsimp only
    obtain ⟨C, hC, hCall, hCsend⟩ := redirectOrSend_send env w r resp fr1
    have hB1 : fr1.trace = fr.trace ++ B := hB
    have hc1 : fr1.ctx = fr.ctx := hctx
    refine ⟨B, C, by rw [hC, hB1], hall, hCall, ?_, hshape⟩
    intro e he hs
    rw [← hc1]
    exact hCsend e he hs

/-- Before the finalization starts, every `HandlePanic` in the trace was given
the local `ctx` the finalization starts with. -/
theorem exitFrame_handlePanic (env : Env σ Ctx Raw Req R Cookie P W) (r : Raw) (resp : R)
    (s1 : σ) :
    (∀ e ∈ (exitFrame env r resp s1).trace, e.isFinalization = false) ∧
    ∀ e ∈ (exitFrame env r resp s1).trace, e.isHandlePanic = true →
      ∃ v, e = .handlePanic resp (exitFrame env r resp s1).ctx v := by
  refine ⟨?_, ?_⟩
  · obtain ⟨es, he, hes⟩ := exitFrame_extends env r resp s1
    intro e hmem
    rw [he] at hmem
    rcases List.mem_append.mp hmem with h | h
    · simp at h
      subst h
      rfl
    · simpa using hes e h
  · unfold exitFrame
    obtain ⟨es, he, hes⟩ := body_extends env r resp
      { world := s1, ctx := env.context r, trace := [.newResponse (env.context r) r] }
    have hno : ∀ e ∈ (body env r resp
        { world := s1, ctx := env.context r,
          trace := [.newResponse (env.context r) r] }).frame.trace,
        e.isHandlePanic = false := by
      intro e hmem
      rw [he] at hmem
      rcases List.mem_append.mp hmem with h | h
      · simp at h
        subst h
        rfl
      · have := hes e h
        cases e <;> simp_all [Event.isPipeline, Event.isHandlePanic]
    generalize body env r resp
      { world := s1, ctx := env.context r,
        trace := [.newResponse (env.context r) r] } = o at hno ⊢
    match o with
    | .ret _ fr =>
      intro e hmem hp
      have := hno e hmem
      simp [hp] at this
    | .panic none fr =>
      intro e hmem hp
      have := hno e hmem
      simp [hp] at this
    | .panic (some v) fr =>
      intro e hmem hp
      simp only [panicGuard] at hmem ⊢
      rw [call_frame_trace] at hmem
      rw [call_frame_ctx]
      rcases List.mem_append.mp hmem with h | h
      · have := hno e h
        simp [hp] at this
      · simp at h
        exact ⟨v, h⟩

theorem Event.isSend_isFinalization (e : Event Ctx Raw Req R Cookie P W)
    (h : e.isSend = true) : e.isFinalization = true := by
  cases e <;> simp_all [Event.isSend, Event.isFinalization]

theorem Event.not_isSend_of_isCookieWriting (e : Event Ctx Raw Req R Cookie P W)
    (h : e.isCookieWriting = true) : e.isSend = false := by
  cases e <;> simp_all [Event.isSend, Event.isCookieWriting]

theorem Event.not_isHandlePanic_of_isCookieWriting (e : Event Ctx Raw Req R Cookie P W)
    (h : e.isCookieWriting = true) : e.isHandlePanic = false := by
  cases e <;> simp_all [Event.isHandlePanic, Event.isCookieWriting]

theorem Event.not_isHandlePanic_of_isRedirectOrSend (e : Event Ctx Raw Req R Cookie P W)
    (h : e.isRedirectOrSend = true) : e.isHandlePanic = false := by
  cases e <;> simp_all [Event.isHandlePanic, Event.isRedirectOrSend]

/-- The trace of the finalization when the cookie half returns and the response
is a `Redirecter` whose `RedirectTo` panics: the cookie calls, then
`RedirectTo`, and nothing more. -/
theorem finalize_trace_of_redirectTo_panic (env : Env σ Ctx Raw Req R Cookie P W) (w : W)
    (r : Raw) (resp : R) (fr frC : Frame σ Ctx Raw Req R Cookie P W)
    (redirectTo : σ → Outcome P σ (String × Int)) (m : Option P) (s2 : σ)
    (hck : writeCookies env w resp fr = .ret () frC)
    (hred : env.redirecter resp = some redirectTo)
    (hrt : redirectTo frC.world = .panic m s2) :
    (finalize env w r resp fr).frame.trace = frC.trace ++ [.redirectTo resp] := by
  unfold finalize
  rw [hck]
  dsimp only
  unfold redirectOrSend
  rw [hred]
  dsimp only
  rw [call_panic _ _ _ hrt]
  rfl

/-- No `http.SetCookie` is called before the finalization starts. -/
theorem no_setCookie_before_exit (env : Env σ Ctx Raw Req R Cookie P W) (r : Raw)
    (resp : R) (s1 : σ) :
    (exitFrame env r resp s1).trace.filter Event.isSetCookie = [] := by
  have h2 := Extends.filter_eq (q := Event.isSetCookie)
    (fun e he => by cases e <;> simp_all [Event.isFinalization, Event.isSetCookie])
    (exitFrame_extends env r resp s1)
  rw [h2]
  simp [List.filter, Event.isSetCookie]

theorem Event.not_isSetCookie_of_isRedirectOrSend (e : Event Ctx Raw Req R Cookie P W)
    (h : e.isRedirectOrSend = true) : e.isSetCookie = false := by
  cases e <;> simp_all [Event.isSetCookie, Event.isRedirectOrSend]

end Lemmas

section ResponseLemmas

variable {E T : Type}

/-- The loop of `HasErrors` answers true exactly when an entry has severity
`DiagnosticError`. -/
theorem hasErrorIn_iff (diags : List Diagnostic) :
    hasErrorIn diags = true ↔ ∃ d ∈ diags, d.Severity = Severity.DiagnosticError := by
  induction diags with
  | nil => simp [hasErrorIn]
  | cons d ds ih =>
    unfold hasErrorIn
    by_cases h : d.Severity = Severity.DiagnosticError
    · simp [h]
    · simp [h, ih]

theorem hasErrorIn_append (xs ys : List Diagnostic) :
    hasErrorIn (xs ++ ys) = (hasErrorIn xs || hasErrorIn ys) := by
  induction xs with
  | nil => simp [hasErrorIn]
  | cons d ds ih =>
    simp only [List.cons_append, hasErrorIn]
    by_cases h : d.Severity = Severity.DiagnosticError
    · simp [h]
    · simp [h, ih]

/-- A call to `AddWarning` does not change what `HasErrors` answers. -/
theorem HasErrors_AddWarning (r : Response E T) (code : Code) (paths : List Steps) :
    (r.AddWarning code paths).HasErrors = r.HasErrors := by
  simp [Response.HasErrors, Response.AddWarning, hasErrorIn_append, hasErrorIn]

/-- Any number of calls to `AddWarning` leave the answer of `HasErrors` as it
was. -/
theorem HasErrors_of_addsOnlyWarnings (before after : Response E T)
    (h : AddsOnlyWarnings before after) : after.HasErrors = before.HasErrors := by
  obtain ⟨ws, hws⟩ := h
  have key : ∀ (l : List (Code × List Steps)) (r : Response E T),
      (l.foldl (fun r cw => r.AddWarning cw.1 cw.2) r).HasErrors = r.HasErrors := by
    intro l
    induction l with
    | nil => intro r; rfl
    | cons cw l ih =>
      intro r
      rw [List.foldl_cons, ih, HasErrors_AddWarning]
  have := key ws before
  unfold Response.HasErrors at this ⊢
  rw [hws, this]

/-- The loop of `NewResponse` collects the content types of the encoders in
registration order. -/
theorem register_alts (ops : Encoders E T) (es : List E)
    (acc : List String × (String → Option E)) :
    (es.foldl (register ops) acc).1 = acc.1 ++ es.map ops.contentType := by
  induction es generalizing acc with
  | nil => simp
  | cons e es ih =>
    rw [List.foldl_cons, ih]
    simp [register]

/-- A key that is the content type of no encoder is not set by the loop. -/
theorem register_lookup_none (ops : Encoders E T) (es : List E)
    (acc : List String × (String → Option E)) (key : String)
    (h : ∀ e ∈ es, ops.contentType e ≠ key) :
    (es.foldl (register ops) acc).2 key = acc.2 key := by
  induction es generalizing acc with
  | nil => rfl
  | cons e es ih =>
    rw [List.foldl_cons, ih _ (fun x hx => h x (List.mem_cons_of_mem _ hx))]
    have hne : key ≠ ops.contentType e := fun heq => h e (List.mem_cons_self _ _) heq.symm
    simp [register, hne]

/-- A key that is the content type of an encoder is mapped by the loop to an
encoder with that content type. -/
theorem register_lookup_some (ops : Encoders E T) (es : List E)
    (acc : List String × (String → Option E)) (key : String)
    (h : ∃ e ∈ es, ops.contentType e = key) :
    ∃ e ∈ es, (es.foldl (register ops) acc).2 key = some e ∧ ops.contentType e = key := by
  induction es generalizing acc with
  | nil => simp at h
  | cons e es ih =>
    rw [List.foldl_cons]
    by_cases hrest : ∃ x ∈ es, ops.contentType x = key
    · obtain ⟨x, hx, hlook, hct⟩ := ih (register ops acc e) hrest
      exact ⟨x, List.mem_cons_of_mem _ hx, hlook, hct⟩
    · have hnone : ∀ x ∈ es, ops.contentType x ≠ key := fun x hx heq => hrest ⟨x, hx, heq⟩
      have hhead : ops.contentType e = key := by
        obtain ⟨x, hx, hct⟩ := h
        rcases List.mem_cons.mp hx with rfl | hx
        · exact hct
        · exact absurd hct (hnone x hx)
      refine ⟨e, List.mem_cons_self _ _, ?_, hhead⟩
      rw [register_lookup_none ops es _ key hnone]
      simp [register, hhead]

/-- The encoder `NewResponse` attaches: the one the loop mapped the negotiated
content type to, and `jsonEncoder{}` when there is none. -/
theorem NewResponse_enc (ops : Encoders E T) (negotiate : String → List String → String)
    (rf : ResponseFactory E T) (accept : String) :
    (rf.NewResponse ops negotiate accept).enc =
      some (((rf.encoders.foldl (register ops) ([], fun _ => none)).2
        (negotiate accept (rf.encoders.map ops.contentType))).getD ops.jsonEncoder) := by
  have halts := register_alts ops rf.encoders ([], fun _ => none)
  simp only [List.nil_append] at halts
  unfold ResponseFactory.NewResponse
  simp only [halts]
  cases (rf.encoders.foldl (register ops) ([], fun _ => none)).2
    (negotiate accept (rf.encoders.map ops.contentType)) <;> rfl

/-- With an encoder that succeeds and a writer whose three calls return,
`Send` sets the content type, writes the status and writes the body, in this
order. -/
theorem Send_of_encode_ok {ω : Type} (ops : Encoders E T) (w : Writer ω)
    (r : Response E T) (k : Sink T ω) (enc : E) (body : Bytes) (x1 x2 x3 : ω)
    (henc : r.enc = some enc) (hok : ops.encode enc r = .ok body)
    (h1 : w.setHeader "Content-Type" (ops.contentType enc) k.writer = .ret () x1)
    (h2 : w.writeHeader r.status x1 = .ret () x2)
    (h3 : w.write body x2 = .ret () x3) :
    r.Send ops w k = .ret ()
      { k with
        calls := k.calls ++
          [.setHeader "Content-Type" (ops.contentType enc), .writeHeader r.status,
            .write body],
        writer := x3 } := by
  simp [Response.Send, Sink.call, henc, hok, h1, h2, h3]

/-- With an encoder that succeeds, the calls `Send` makes on the writer are the
first of these three, in this order, up to the first one that panics. -/
theorem Send_calls_of_encode_ok {ω : Type} (ops : Encoders E T) (w : Writer ω)
    (r : Response E T) (k : Sink T ω) (enc : E) (body : Bytes)
    (henc : r.enc = some enc) (hok : ops.encode enc r = .ok body) :
    ∃ cs, cs <+: [WriterCall.setHeader "Content-Type" (ops.contentType enc),
        .writeHeader r.status, .write body] ∧
      (r.Send ops w k).frame.calls = k.calls ++ cs := by
  cases h1 : w.setHeader "Content-Type" (ops.contentType enc) k.writer with
  | panic m x1 =>
    exact ⟨[.setHeader "Content-Type" (ops.contentType enc)], by simp,
      by simp [Response.Send, Sink.call, henc, hok, h1, Outcome.frame]⟩
  | ret u x1 =>
    cases h2 : w.writeHeader r.status x1 with
    | panic m x2 =>
      exact ⟨[.setHeader "Content-Type" (ops.contentType enc), .writeHeader r.status],
        by simp, by simp [Response.Send, Sink.call, henc, hok, h1, h2, Outcome.frame]⟩
    | ret u2 x2 =>
      refine ⟨_, List.prefix_refl _, ?_⟩
      cases h3 : w.write body x2 <;>
        simp [Response.Send, Sink.call, henc, hok, h1, h2, h3, Outcome.frame]

/-- With an encoder that fails and a test handle, `Send` reports the error to
the test and calls `WriteHeader(500)` and nothing else on the writer, whether
that call returns or panics. -/
theorem Send_of_encode_error {ω : Type} (ops : Encoders E T) (w : Writer ω)
    (r : Response E T) (k : Sink T ω) (enc : E) (err : String) (t : T)
    (henc : r.enc = some enc) (herr : ops.encode enc r = .error err)
    (ht : r.t = some t) :
    (r.Send ops w k).frame.calls = k.calls ++ [.writeHeader 500] ∧
    (r.Send ops w k).frame.reported = k.reported ++
      [(t, "An unexpected error occurred sending the response: " ++ err)] ∧
    ∀ x1, w.writeHeader 500 k.writer = .ret () x1 →
      r.Send ops w k = .ret ()
        { calls := k.calls ++ [.writeHeader 500],
          reported := k.reported ++
            [(t, "An unexpected error occurred sending the response: " ++ err)],
          writer := x1 } := by
  refine ⟨?_, ?_, ?_⟩
  · cases h : w.writeHeader 500 k.writer <;>
      simp [Response.Send, Sink.call, henc, herr, ht, h, Outcome.frame]
  · cases h : w.writeHeader 500 k.writer <;>
      simp [Response.Send, Sink.call, henc, herr, ht, h, Outcome.frame]
  · intro x1 h
    simp [Response.Send, Sink.call, henc, herr, ht, h]

end ResponseLemmas

end Genhttp

namespace Genhttp

section Claims

variable {σ Ctx Raw Req R Cookie P W : Type}

/-- C1: when `HasErrors` is false on the fresh response and true at the check
after `ParseRequest` has returned, the handler calls neither `ValidateRequest`
nor `ExecuteRequest`: the only phase in its trace is that one `ParseRequest`,
and the handler goes on with the finalization alone. -/
theorem parse_errors_skip_validate_and_execute
    (env : Env σ Ctx Raw Req R Cookie P W) (w : W) (r : Raw) (s s1 s2 s3 s4 : σ)
    (resp : R) (req : Req) (ctx2 : Ctx)
    (hnew : env.newResponse (env.context r) r s = .ret resp s1)
    (hfresh : env.hasErrors resp s1 = .ret false s2)
    (hparse : env.parseRequest (env.context r) r resp s2 = .ret (req, ctx2) s3)
    (hcheck : env.hasErrors resp s3 = .ret true s4) :
    (∀ c q x, Event.validateRequest c q x ∉ (Handle env w r s).frame.trace) ∧
    (∀ c q x, Event.executeRequest c q x ∉ (Handle env w r s).frame.trace) ∧
    (Handle env w r s).frame.trace.filter Event.isPhase =
      [.parseRequest (env.context r) r resp] := by
  have hb := body_of_shortCircuits env r resp s1 s4 ctx2 _ [.newResponse (env.context r) r]
    (ShortCircuits.parsed _ _ _ _ _ hfresh hparse hcheck)
  obtain ⟨es, htr, hes⟩ := Handle_trace_of_finalize env w r s resp _
    (Handle_of_body_ret env w r s s1 resp _ hnew hb)
  have hnot : ∀ e ∈ es, e.isPhase = false := by
    intro e he
    have := hes e he
    cases e <;> simp_all [Event.isFinalization, Event.isPhase]
  rw [htr]
  refine ⟨?_, ?_, ?_⟩
  · intro c q x hmem
    rcases List.mem_append.mp hmem with h | h
    · simp at h
    · simpa [Event.isPhase] using hnot _ h
  · intro c q x hmem
    rcases List.mem_append.mp hmem with h | h
    · simp at h
    · simpa [Event.isPhase] using hnot _ h
  · have hfil : es.filter Event.isPhase = [] :=
      List.filter_eq_nil_iff.mpr fun e he => by simp [hnot e he]
    rw [List.filter_append, hfil]
    simp [List.filter, Event.isPhase]

/-- The hypotheses of C1 hold for a scripted endpoint whose `ParseRequest` adds
one error diagnostic. -/
theorem parse_errors_skip_validate_and_execute_witness :
    (∀ c q x, Event.validateRequest c q x ∉
      (Handle parseRejects.env () () 0).frame.trace) ∧
    (∀ c q x, Event.executeRequest c q x ∉
      (Handle parseRejects.env () () 0).frame.trace) ∧
    (Handle parseRejects.env () () 0).frame.trace.filter Event.isPhase =
      [.parseRequest 0 () ()] :=
  parse_errors_skip_validate_and_execute parseRejects.env () () 0 0 0 1 1 ()
    7 1 rfl rfl rfl rfl

/-- C2: when `HasErrors` is false after `ParseRequest` and true at the check
after `ValidateRequest` has returned, the handler never calls `ExecuteRequest`:
the phases in its trace are that `ParseRequest` and that `ValidateRequest`. -/
theorem validate_errors_skip_execute
    (env : Env σ Ctx Raw Req R Cookie P W) (w : W) (r : Raw) (s s1 s2 s3 s4 s5 s6 : σ)
    (resp : R) (req : Req) (ctx2 ctx4 : Ctx)
    (hnew : env.newResponse (env.context r) r s = .ret resp s1)
    (hfresh : env.hasErrors resp s1 = .ret false s2)
    (hparse : env.parseRequest (env.context r) r resp s2 = .ret (req, ctx2) s3)
    (hparsed : env.hasErrors resp s3 = .ret false s4)
    (hvalidate : env.validateRequest ctx2 req resp s4 = .ret ctx4 s5)
    (hcheck : env.hasErrors resp s5 = .ret true s6) :
    (∀ c q x, Event.executeRequest c q x ∉ (Handle env w r s).frame.trace) ∧
    (Handle env w r s).frame.trace.filter Event.isPhase =
      [.parseRequest (env.context r) r resp, .validateRequest ctx2 req resp] := by
  have hb := body_of_shortCircuits env r resp s1 s6 ctx4 _ [.newResponse (env.context r) r]
    (ShortCircuits.validated _ _ _ _ _ _ _ _ hfresh hparse hparsed hvalidate hcheck)
  obtain ⟨es, htr, hes⟩ := Handle_trace_of_finalize env w r s resp _
    (Handle_of_body_ret env w r s s1 resp _ hnew hb)
  have hnot : ∀ e ∈ es, e.isPhase = false := by
    intro e he
    have := hes e he
    cases e <;> simp_all [Event.isFinalization, Event.isPhase]
  rw [htr]
  refine ⟨?_, ?_⟩
  · intro c q x hmem
    rcases List.mem_append.mp hmem with h | h
    · simp at h
    · simpa [Event.isPhase] using hnot _ h
  · have hfil : es.filter Event.isPhase = [] :=
      List.filter_eq_nil_iff.mpr fun e he => by simp [hnot e he]
    rw [List.filter_append, hfil]
    simp [List.filter, Event.isPhase]

/-- The hypotheses of C2 hold for a scripted endpoint whose `ValidateRequest`
adds two error diagnostics. -/
theorem validate_errors_skip_execute_witness :
    (∀ c q x, Event.executeRequest c q x ∉
      (Handle validateRejects.env () () 0).frame.trace) ∧
    (Handle validateRejects.env () () 0).frame.trace.filter Event.isPhase =
      [.parseRequest 0 () (), .validateRequest 1 7 ()] :=
  validate_errors_skip_execute validateRejects.env () () 0 0 0 0 0 2 2 ()
    7 1 11 rfl rfl rfl rfl rfl rfl

/-- C3: when a phase panics with a non-nil value `v` and `HandlePanic` and the
finalization return, the handler calls `HandlePanic` once in the whole run, with
`v` and the local `ctx` of that moment, right after the panicking call; it then
runs the finalization and returns to its caller.  Its trace is the calls up to
the panic, that one `HandlePanic`, and then finalization calls only. -/
theorem phase_panic_handled_once_then_finalized
    (env : Env σ Ctx Raw Req R Cookie P W) (w : W) (r : Raw) (s s1 sP sH : σ)
    (resp : R) (v : P) (ctxP : Ctx) (T : List (Event Ctx Raw Req R Cookie P W))
    (frF : Frame σ Ctx Raw Req R Cookie P W)
    (hnew : env.newResponse (env.context r) r s = .ret resp s1)
    (hpanic : PhasePanics env r resp s1 v ctxP sP T)
    (hhandle : env.handlePanic resp ctxP v sP = .ret () sH)
    (hfinal : finalize env w r resp
      { world := sH, ctx := ctxP,
        trace := .newResponse (env.context r) r :: T ++ [.handlePanic resp ctxP v] } =
      .ret () frF) :
    Handle env w r s = finalize env w r resp
      { world := sH, ctx := ctxP,
        trace := .newResponse (env.context r) r :: T ++ [.handlePanic resp ctxP v] } ∧
    Handle env w r s = .ret () frF ∧
    frF.trace.filter Event.isHandlePanic = [.handlePanic resp ctxP v] ∧
    ∃ es, frF.trace =
        .newResponse (env.context r) r :: T ++ [.handlePanic resp ctxP v] ++ es ∧
      (∀ e ∈ T, e.isPipeline = true) ∧ ∀ e ∈ es, e.isFinalization = true := by
  have hb := body_of_phasePanics env r resp s1 sP v ctxP T [.newResponse (env.context r) r]
    hpanic
  have hH : Handle env w r s = finalize env w r resp
      { world := sH, ctx := ctxP,
        trace := .newResponse (env.context r) r :: T ++ [.handlePanic resp ctxP v] } := by
    rw [Handle_of_newResponse env w r s s1 resp hnew, hb]
    simp [panicGuard, call, hhandle, runDeferred]
  have hT : ∀ e ∈ T, e.isPipeline = true := by
    cases hpanic <;> simp [Event.isPipeline]
  obtain ⟨es, htr, hes⟩ := Handle_trace_of_finalize env w r s resp _ hH
  rw [hH, hfinal] at htr
  refine ⟨hH, by rw [hH, hfinal], ?_, es, by simpa using htr, hT, hes⟩
  have htr2 : frF.trace =
      .newResponse (env.context r) r :: T ++ [.handlePanic resp ctxP v] ++ es := by
    simpa using htr
  have h1 : T.filter Event.isHandlePanic = [] :=
    List.filter_eq_nil_iff.mpr fun e he => by
      have := hT e he
      cases e <;> simp_all [Event.isPipeline, Event.isHandlePanic]
  have h2 : es.filter Event.isHandlePanic = [] :=
    List.filter_eq_nil_iff.mpr fun e he => by
      have := hes e he
      cases e <;> simp_all [Event.isFinalization, Event.isHandlePanic]
  rw [htr2]
  simp [List.filter_append, List.filter_cons, h1, h2, Event.isHandlePanic]

/-- The hypotheses of C3 hold for a scripted endpoint with cookies whose
`ValidateRequest` panics with the value 3. -/
theorem phase_panic_handled_once_then_finalized_witness :
    Handle validatePanics.env () () 0 =
      .ret ()
        { world := 0, ctx := 1,
          trace := [.newResponse 0 (), .hasErrors (), .parseRequest 0 () (), .hasErrors (),
            .validateRequest 1 7 (), .handlePanic () 1 3, .writeCookies (),
            .setCookie () 4, .setCookie () 5, .send () 1 ()] } :=
  (phase_panic_handled_once_then_finalized
    validatePanics.env () () 0 0 0 0 ()
    3 1
    [.hasErrors (), .parseRequest 0 () (), .hasErrors (), .validateRequest 1 7 ()]
    { world := 0, ctx := 1,
      trace := [.newResponse 0 (), .hasErrors (), .parseRequest 0 () (), .hasErrors (),
        .validateRequest 1 7 (), .handlePanic () 1 3, .writeCookies (),
        .setCookie () 4, .setCookie () 5, .send () 1 ()] }
    rfl (PhasePanics.validate 0 0 0 0 7 1 rfl rfl rfl rfl)
    rfl rfl).2.1

/-- C4 as stated fails: the response is a `Redirecter` whose `RedirectTo`
returns `("/next", 302)`, but it is also a `CookieWriter` whose `WriteCookies`
panics; the finalization ends there, and no `http.Redirect` is issued. -/
theorem writeCookies_panic_skips_redirect :
    (cookiesPanicThenRedirect.redirecter ()).map (fun f => f 0) =
      some (.ret ("/next", 302) 0) ∧
    Handle cookiesPanicThenRedirect () () 0 =
      .panic (some 8)
        { world := 0, ctx := 111,
          trace := [.newResponse 0 (), .hasErrors (), .parseRequest 0 () (), .hasErrors (),
            .validateRequest 1 7 (), .hasErrors (), .executeRequest 11 7 (),
            .writeCookies ()] } ∧
    (Handle cookiesPanicThenRedirect () () 0).frame.trace.filter Event.isTerminal = [] := by
  exact ⟨rfl, rfl, rfl⟩

/-- C4, amended: on every exit path, when the cookie half of the finalization
returns (`WriteCookies` and every `http.SetCookie`, for a `CookieWriter`) and
`RedirectTo` then returns `(url, code)` with `300 ≤ code ≤ 399`, the handler
ends with `http.Redirect(w, r, url, code)`: that is the one redirect of the
whole run, and `Send` is not called at all. -/
theorem redirect_3xx_issued_and_send_skipped
    (env : Env σ Ctx Raw Req R Cookie P W) (w : W) (r : Raw) (s s1 s2 : σ) (resp : R)
    (frC : Frame σ Ctx Raw Req R Cookie P W)
    (redirectTo : σ → Outcome P σ (String × Int)) (url : String) (code : Int)
    (hnew : env.newResponse (env.context r) r s = .ret resp s1)
    (hck : writeCookies env w resp (exitFrame env r resp s1) = .ret () frC)
    (hred : env.redirecter resp = some redirectTo)
    (hrt : redirectTo frC.world = .ret (url, code) s2)
    (hlo : 300 ≤ code) (hhi : code ≤ 399) :
    (Handle env w r s).frame.trace =
      frC.trace ++ [.redirectTo resp, .redirect w r url code] ∧
    (Handle env w r s).frame.trace.filter Event.isTerminal = [.redirect w r url code] := by
  have htr := finalize_trace_of_redirecter env w r resp _ frC redirectTo url code s2
    hck hred hrt
  have hc : 300 ≤ code ∧ code < 400 := ⟨hlo, by omega⟩
  rw [if_pos hc] at htr
  rw [Handle_frame env w r s s1 resp hnew, htr]
  refine ⟨rfl, ?_⟩
  rw [List.filter_append, no_terminal_before_redirectOrSend env w r resp s1 frC hck]
  simp [List.filter, Event.isTerminal]

/-- The hypotheses of C4 hold on the recovered-panic path of a scripted endpoint
that redirects with status 302. -/
theorem redirect_3xx_issued_and_send_skipped_witness :
    (Handle redirectAfterPanic.env () () 0).frame.trace =
      [.newResponse 0 (), .hasErrors (), .parseRequest 0 () (), .handlePanic () 0 9,
        .writeCookies (), .setCookie () 1] ++
        [.redirectTo (), .redirect () () "/login" 302] ∧
    (Handle redirectAfterPanic.env () () 0).frame.trace.filter Event.isTerminal =
      [.redirect () () "/login" 302] :=
  redirect_3xx_issued_and_send_skipped redirectAfterPanic.env () () 0 0 0 ()
    { world := 0, ctx := 0,
      trace := [.newResponse 0 (), .hasErrors (), .parseRequest 0 () (), .handlePanic () 0 9,
        .writeCookies (), .setCookie () 1] }
    (fun s => .ret ("/login", 302) s) "/login" 302 rfl rfl rfl rfl (by decide) (by decide)

/-- C5 as stated fails: the response is a `Redirecter` whose `RedirectTo`
returns the status 404, but it is also a `CookieWriter` whose `WriteCookies`
panics; the finalization ends there, and `Send` is never called. -/
theorem writeCookies_panic_skips_send :
    (cookiesPanicThenSend.redirecter ()).map (fun f => f 0) =
      some (.ret ("/next", 404) 0) ∧
    Handle cookiesPanicThenSend () () 0 =
      .panic (some 8)
        { world := 0, ctx := 111,
          trace := [.newResponse 0 (), .hasErrors (), .parseRequest 0 () (), .hasErrors (),
            .validateRequest 1 7 (), .hasErrors (), .executeRequest 11 7 (),
            .writeCookies ()] } ∧
    (Handle cookiesPanicThenSend () () 0).frame.trace.filter Event.isSend = [] := by
  exact ⟨rfl, rfl, rfl⟩

/-- C5, amended: on every exit path, when the cookie half of the finalization
returns (`WriteCookies` and every `http.SetCookie`, for a `CookieWriter`) and
`RedirectTo` then returns a status outside `[300, 400)`, no redirect is issued,
and the handler ends with `Send(ctx, w)` on the writer `w` it was given: the
one `Send` of the run. -/
theorem redirect_other_status_sends
    (env : Env σ Ctx Raw Req R Cookie P W) (w : W) (r : Raw) (s s1 s2 : σ) (resp : R)
    (frC : Frame σ Ctx Raw Req R Cookie P W)
    (redirectTo : σ → Outcome P σ (String × Int)) (url : String) (code : Int)
    (hnew : env.newResponse (env.context r) r s = .ret resp s1)
    (hck : writeCookies env w resp (exitFrame env r resp s1) = .ret () frC)
    (hred : env.redirecter resp = some redirectTo)
    (hrt : redirectTo frC.world = .ret (url, code) s2)
    (hout : code < 300 ∨ 400 ≤ code) :
    (Handle env w r s).frame.trace =
      frC.trace ++ [.redirectTo resp, .send resp (exitFrame env r resp s1).ctx w] ∧
    (Handle env w r s).frame.trace.filter Event.isTerminal =
      [.send resp (exitFrame env r resp s1).ctx w] := by
  have htr := finalize_trace_of_redirecter env w r resp _ frC redirectTo url code s2
    hck hred hrt
  have hc : ¬ (300 ≤ code ∧ code < 400) := by omega
  rw [if_neg hc] at htr
  rw [Handle_frame env w r s s1 resp hnew, htr]
  refine ⟨rfl, ?_⟩
  rw [List.filter_append, no_terminal_before_redirectOrSend env w r resp s1 frC hck]
  simp [List.filter, Event.isTerminal]

/-- The hypotheses of C5 hold for scripted endpoints whose `RedirectTo` gives
the statuses 299, 400 and 0. -/
theorem redirect_other_status_sends_witness :
    (Handle (withTarget 299).env () () 0).frame.trace.filter Event.isTerminal =
      [.send () 111 ()] ∧
    (Handle (withTarget 400).env () () 0).frame.trace.filter Event.isTerminal =
      [.send () 111 ()] ∧
    (Handle (withTarget 0).env () () 0).frame.trace.filter Event.isTerminal =
      [.send () 111 ()] :=
  ⟨(redirect_other_status_sends (withTarget 299).env () () 0 0 0 ()
      (exitFrame (withTarget 299).env () () 0)
      (fun s => .ret ("/next", 299) s) "/next" 299 rfl rfl rfl rfl (by decide)).2,
    (redirect_other_status_sends (withTarget 400).env () () 0 0 0 ()
      (exitFrame (withTarget 400).env () () 0)
      (fun s => .ret ("/next", 400) s) "/next" 400 rfl rfl rfl rfl (by decide)).2,
    (redirect_other_status_sends (withTarget 0).env () () 0 0 0 ()
      (exitFrame (withTarget 0).env () () 0)
      (fun s => .ret ("/next", 0) s) "/next" 0 rfl rfl rfl rfl (by decide)).2⟩

/-- C6 as stated fails: `WriteCookies` returns the cookies 4, 5, 6 and
`http.SetCookie` panics for the cookie 5; the loop ends there, the cookie 6 is
never written, and the panic leaves the handler. -/
theorem setCookie_panic_skips_later_cookies :
    (secondCookiePanics.cookieWriter ()).map (fun f => f 0) = some (.ret [4, 5, 6] 0) ∧
    (Handle secondCookiePanics () () 0).frame.trace.filter Event.isSetCookie =
      [.setCookie () 4, .setCookie () 5] ∧
    Handle secondCookiePanics () () 0 =
      .panic (some 9)
        { world := 0, ctx := 111,
          trace := [.newResponse 0 (), .hasErrors (), .parseRequest 0 () (), .hasErrors (),
            .validateRequest 1 7 (), .hasErrors (), .executeRequest 11 7 (),
            .writeCookies (), .setCookie () 4, .setCookie () 5] } := by
  exact ⟨rfl, rfl, rfl⟩

/-- C6, amended: on every exit path, when the response is a `CookieWriter` and
its `WriteCookies` returns `cs`, the calls to `http.SetCookie` of the whole run
are made on the writer `w`, on the entries of `cs` in the order of `cs`, one
call per entry, as far as the loop gets: they stop at the first call that
panics.  When the cookie loop runs to its end they are exactly one per entry of
`cs`.  Nothing is assumed about `Redirecter`, nor about what the redirect or
`Send` that follows does. -/
theorem every_cookie_written_once
    (env : Env σ Ctx Raw Req R Cookie P W) (w : W) (r : Raw) (s s1 s2 : σ) (resp : R)
    (getCookies : σ → Outcome P σ (List Cookie)) (cs : List Cookie)
    (hnew : env.newResponse (env.context r) r s = .ret resp s1)
    (hcw : env.cookieWriter resp = some getCookies)
    (hget : getCookies (exitFrame env r resp s1).world = .ret cs s2) :
    (∃ ds, ds <+: cs ∧
      (Handle env w r s).frame.trace.filter Event.isSetCookie =
        ds.map (Event.setCookie w)) ∧
    ∀ frC, writeCookies env w resp (exitFrame env r resp s1) = .ret () frC →
      (Handle env w r s).frame.trace.filter Event.isSetCookie =
        cs.map (Event.setCookie w) := by
  have hmap : ∀ l : List Cookie,
      List.filter Event.isSetCookie
        (List.map (Event.setCookie w) l : List (Event Ctx Raw Req R Cookie P W)) =
        List.map (Event.setCookie w) l := by
    intro l
    rw [List.filter_eq_self]
    intro e he
    obtain ⟨c, _, rfl⟩ := List.mem_map.mp he
    rfl
  have h3 := no_setCookie_before_exit env r resp s1
  refine ⟨?_, ?_⟩
  · obtain ⟨B, C, htr, _, hC, _, hshape⟩ :=
      finalize_trace_shape env w r resp (exitFrame env r resp s1)
    obtain ⟨ds, hpre, hB⟩ := hshape getCookies cs s2 hcw hget
    refine ⟨ds, hpre, ?_⟩
    have hCnil : C.filter Event.isSetCookie = [] :=
      List.filter_eq_nil_iff.mpr fun e he => by
        simp [Event.not_isSetCookie_of_isRedirectOrSend e (hC e he)]
    rw [Handle_frame env w r s s1 resp hnew, htr, List.filter_append, List.filter_append,
      h3, hCnil, hB, List.filter_cons, hmap]
    simp [Event.isSetCookie]
  · intro frC hck
    rw [Handle_frame env w r s s1 resp hnew,
      finalize_of_writeCookies_ret env w r resp _ frC hck]
    have h1 := Extends.filter_eq (q := Event.isSetCookie)
      (fun e he => Event.not_isSetCookie_of_isRedirectOrSend e he)
      (redirectOrSend_extends env w r resp frC)
    rw [h1, writeCookies_trace_of_ret env w resp _ frC getCookies cs s2 hcw hget hck,
      List.filter_append, h3, List.nil_append, List.filter_cons, hmap]
    simp [Event.isSetCookie]

/-- The hypotheses of the amended C6 hold on the short-circuit path of a
scripted endpoint that writes the cookies 4, 5, 4 and then redirects. -/
theorem every_cookie_written_once_witness :
    (Handle cookiesThenRedirect.env () () 0).frame.trace.filter Event.isSetCookie =
      [.setCookie () 4, .setCookie () 5, .setCookie () 4] :=
  (every_cookie_written_once cookiesThenRedirect.env () () 0 1 1 ()
    (fun s => .ret [4, 5, 4] s) [4, 5, 4] rfl rfl rfl).2
    (writeCookies cookiesThenRedirect.env () () (exitFrame cookiesThenRedirect.env () () 1)).frame
    rfl

/-- C7 as stated fails: `ParseRequest` panics, the guard recovers and calls
`HandlePanic`, `HandlePanic` panics with the value 2, the finalization still
runs and calls `Send`, and then the panic leaves the handler. -/
theorem panic_in_handlePanic_escapes :
    Handle panicInHandlePanic.env () () 0 =
      .panic (some 2)
        { world := 0, ctx := 0,
          trace := [.newResponse 0 (), .hasErrors (), .parseRequest 0 () (),
            .handlePanic () 0 1, .send () 0 ()] } := by
  rfl

/-- C7, amended: once `NewResponse` has returned, whatever the statements after
the `defer`s do (a phase or a `HasErrors` check may panic, with any value), the
handler returns to its caller provided that `HandlePanic`, if the guard calls
it, returns, and that the finalization returns. -/
theorem pipeline_panic_contained
    (env : Env σ Ctx Raw Req R Cookie P W) (w : W) (r : Raw) (s s1 : σ) (resp : R)
    (hnew : env.newResponse (env.context r) r s = .ret resp s1)
    (hguard : ∀ v frP,
      body env r resp
        { world := s1, ctx := env.context r,
          trace := [.newResponse (env.context r) r] } = .panic (some v) frP →
      ∃ sH, env.handlePanic resp frP.ctx v frP.world = .ret () sH)
    (hfinal : ∃ frF, finalize env w r resp (exitFrame env r resp s1) = .ret () frF) :
    ∃ frF, Handle env w r s = .ret () frF := by
  obtain ⟨frF, hF⟩ := hfinal
  refine ⟨frF, ?_⟩
  rw [Handle_of_newResponse env w r s s1 resp hnew]
  unfold exitFrame at hF
  generalize hb : body env r resp
    { world := s1, ctx := env.context r,
      trace := [.newResponse (env.context r) r] } = o at hF hguard
  match o, hguard with
  | .ret _ fr, _ => exact hF
  | .panic none fr, _ => exact hF
  | .panic (some v) fr, hguard =>
    obtain ⟨sH, hH⟩ := hguard v fr rfl
    simp only [panicGuard, call, hH, Outcome.frame, runDeferred] at hF ⊢
    exact hF

/-- The hypotheses of the amended C7 hold for a scripted endpoint whose
`ExecuteRequest` panics and whose `HandlePanic` returns. -/
theorem pipeline_panic_contained_witness :
    ∃ frF, Handle executePanics.env () () 0 = .ret () frF :=
  pipeline_panic_contained executePanics.env () () 0 0 () rfl
    (fun _ _ _ => ⟨_, rfl⟩) ⟨_, rfl⟩

/-- C8 as stated fails: the first `HasErrors` check returns true, and the
handler returns without ever calling `Send`, because the response is a
`Redirecter` that gives the status 303. -/
theorem has_errors_redirects_without_send :
    rejectedRedirects.env.hasErrors () 1 = .ret true 1 ∧
    Handle rejectedRedirects.env () () 0 =
      .ret ()
        { world := 1, ctx := 0,
          trace := [.newResponse 0 (), .hasErrors (), .redirectTo (),
            .redirect () () "/login" 303] } := by
  exact ⟨rfl, rfl⟩

/-- C8, amended: when one of the three `HasErrors` checks returns true, the
handler calls no further phase and no `HandlePanic`: it is the finalization run
in the frame the check left, and ends as the finalization ends.  When the cookie
half returns, the answering calls of the run are: `Send(ctx, w)`, once, when the
response is no `Redirecter`; when it is one and `RedirectTo` returns,
`Send(ctx, w)`, once, for a status outside `[300, 400)` and `http.Redirect`
with the url and status given, once, for a status inside; and none when
`RedirectTo` panics. -/
theorem has_errors_goes_straight_to_finalization
    (env : Env σ Ctx Raw Req R Cookie P W) (w : W) (r : Raw) (s s1 sT : σ) (resp : R)
    (ctxT : Ctx) (T : List (Event Ctx Raw Req R Cookie P W))
    (hnew : env.newResponse (env.context r) r s = .ret resp s1)
    (hstop : ShortCircuits env r resp s1 ctxT sT T) :
    Handle env w r s = finalize env w r resp
      { world := sT, ctx := ctxT, trace := .newResponse (env.context r) r :: T } ∧
    (∃ es, (Handle env w r s).frame.trace = .newResponse (env.context r) r :: T ++ es ∧
      ∀ e ∈ es, e.isFinalization = true) ∧
    ∀ frC,
      writeCookies env w resp
        { world := sT, ctx := ctxT, trace := .newResponse (env.context r) r :: T } =
        .ret () frC →
      (env.redirecter resp = none →
        (Handle env w r s).frame.trace.filter Event.isTerminal = [.send resp ctxT w]) ∧
      (∀ redirectTo url code s2,
        env.redirecter resp = some redirectTo →
        redirectTo frC.world = .ret (url, code) s2 →
        (Handle env w r s).frame.trace.filter Event.isTerminal =
          [if 300 ≤ code ∧ code < 400 then .redirect w r url code
            else .send resp ctxT w]) ∧
      ∀ redirectTo m s2,
        env.redirecter resp = some redirectTo →
        redirectTo frC.world = .panic m s2 →
        (Handle env w r s).frame.trace.filter Event.isTerminal = [] := by
  have hb := body_of_shortCircuits env r resp s1 sT ctxT T [.newResponse (env.context r) r]
    hstop
  have hH : Handle env w r s = finalize env w r resp
      { world := sT, ctx := ctxT, trace := .newResponse (env.context r) r :: T } :=
    Handle_of_body_ret env w r s s1 resp _ hnew hb
  have hexit := exitFrame_of_shortCircuits env r resp s1 sT ctxT T hstop
  refine ⟨hH, Handle_trace_of_finalize env w r s resp _ hH, ?_⟩
  intro frC hck
  have hnone : frC.trace.filter Event.isTerminal = [] :=
    no_terminal_before_redirectOrSend env w r resp s1 frC (by rw [hexit]; exact hck)
  refine ⟨?_, ?_, ?_⟩
  · intro hred
    rw [hH, finalize_trace_of_no_redirecter env w r resp _ frC hck hred,
      List.filter_append, hnone]
    simp [List.filter, Event.isTerminal]
  · intro redirectTo url code s2 hred hrt
    rw [hH, finalize_trace_of_redirecter env w r resp _ frC redirectTo url code s2
      hck hred hrt, List.filter_append, hnone]
    by_cases hc : 300 ≤ code ∧ code < 400
    · simp [List.filter, Event.isTerminal, hc]
    · simp [List.filter, Event.isTerminal, hc]
  · intro redirectTo m s2 hred hrt
    rw [hH, finalize_trace_of_redirectTo_panic env w r resp _ frC redirectTo m s2
      hck hred hrt, List.filter_append, hnone]
    simp [List.filter, Event.isTerminal]

/-- The hypotheses of the amended C8 hold at the check after `ValidateRequest`
of two scripted endpoints: one whose `RedirectTo` gives the status 200, which
is answered with `Send`, and one whose `RedirectTo` panics, which gets no
answer. -/
theorem has_errors_goes_straight_to_finalization_witness :
    Handle rejectedSends.env () () 0 = finalize rejectedSends.env () () ()
      { world := 1, ctx := 11,
        trace := [.newResponse 0 (), .hasErrors (), .parseRequest 0 () (), .hasErrors (),
          .validateRequest 1 7 (), .hasErrors ()] } ∧
    (Handle rejectedSends.env () () 0).frame.trace.filter Event.isTerminal =
      [.send () 11 ()] ∧
    (Handle rejectedRedirectToPanics () () 0).frame.trace.filter Event.isTerminal = [] :=
  ⟨(has_errors_goes_straight_to_finalization rejectedSends.env () () 0 0 1 () 11
      [.hasErrors (), .parseRequest 0 () (), .hasErrors (), .validateRequest 1 7 (),
        .hasErrors ()]
      rfl (ShortCircuits.validated 0 0 0 1 1 7 1 11 rfl rfl rfl rfl rfl)).1,
    ((has_errors_goes_straight_to_finalization rejectedSends.env () () 0 0 1 () 11
      [.hasErrors (), .parseRequest 0 () (), .hasErrors (), .validateRequest 1 7 (),
        .hasErrors ()]
      rfl (ShortCircuits.validated 0 0 0 1 1 7 1 11 rfl rfl rfl rfl rfl)).2.2
      (writeCookies rejectedSends.env () ()
        { world := 1, ctx := 11,
          trace := [.newResponse 0 (), .hasErrors (), .parseRequest 0 () (), .hasErrors (),
            .validateRequest 1 7 (), .hasErrors ()] }).frame
      rfl).2.1 (fun s => .ret ("", 200) s) "" 200 1 rfl rfl,
    ((has_errors_goes_straight_to_finalization rejectedRedirectToPanics () () 0 0 2 () 11
      [.hasErrors (), .parseRequest 0 () (), .hasErrors (), .validateRequest 1 7 (),
        .hasErrors ()]
      rfl (ShortCircuits.validated 0 0 0 2 2 7 1 11 rfl rfl rfl rfl rfl)).2.2
      { world := 2, ctx := 11,
        trace := [.newResponse 0 (), .hasErrors (), .parseRequest 0 () (), .hasErrors (),
          .validateRequest 1 7 (), .hasErrors ()] }
      rfl).2.2 (fun s => .panic (some 7) s) (some 7) 2 rfl rfl⟩

/-- C9: when the fresh response already reports errors, no phase is called and
no `HandlePanic`: the handler is the finalization run on that response, in the
world the first `HasErrors` check left, with the request's own context. -/
theorem created_with_errors_skips_phases
    (env : Env σ Ctx Raw Req R Cookie P W) (w : W) (r : Raw) (s s1 s2 : σ) (resp : R)
    (hnew : env.newResponse (env.context r) r s = .ret resp s1)
    (herr : env.hasErrors resp s1 = .ret true s2) :
    Handle env w r s = finalize env w r resp
      { world := s2, ctx := env.context r,
        trace := [.newResponse (env.context r) r, .hasErrors resp] } ∧
    (Handle env w r s).frame.trace.filter Event.isPhase = [] ∧
    ∃ es, (Handle env w r s).frame.trace =
        [.newResponse (env.context r) r, .hasErrors resp] ++ es ∧
      ∀ e ∈ es, e.isFinalization = true := by
  have hb := body_of_shortCircuits env r resp s1 s2 (env.context r) _
    [.newResponse (env.context r) r] (ShortCircuits.created _ herr)
  have hH := Handle_of_body_ret env w r s s1 resp _ hnew hb
  obtain ⟨es, htr, hes⟩ := Handle_trace_of_finalize env w r s resp _ hH
  refine ⟨hH, ?_, es, htr, hes⟩
  have hfil : es.filter Event.isPhase = [] :=
    List.filter_eq_nil_iff.mpr fun e he => by
      have := hes e he
      cases e <;> simp_all [Event.isFinalization, Event.isPhase]
  rw [htr, List.filter_append, hfil]
  simp [List.filter, Event.isPhase]

/-- The hypotheses of C9 hold for a scripted endpoint whose fresh response
holds two error diagnostics. -/
theorem created_with_errors_skips_phases_witness :
    Handle createdWithErrors.env () () 0 =
      .ret ()
        { world := 2, ctx := 0,
          trace := [.newResponse 0 (), .hasErrors (), .writeCookies (), .setCookie () 6,
            .send () 0 ()] } :=
  (created_with_errors_skips_phases createdWithErrors.env () () 0 2 2 () rfl rfl).1

/-- C10: when `HasErrors` is false at all three checks and no phase panics, the
calls before the finalization are, in this order: `NewResponse` once, then
`ParseRequest`, `ValidateRequest` and `ExecuteRequest` once each on the response
`NewResponse` returned, the last two with the request value `ParseRequest`
returned; every finalization call, `Send` among them, comes after
`ExecuteRequest` has returned. -/
theorem clean_run_calls_each_phase_once
    (env : Env σ Ctx Raw Req R Cookie P W) (w : W) (r : Raw) (s s1 s2 s3 s4 s5 s6 s7 : σ)
    (resp : R) (req : Req) (ctx2 ctx4 ctx6 : Ctx)
    (hnew : env.newResponse (env.context r) r s = .ret resp s1)
    (h1 : env.hasErrors resp s1 = .ret false s2)
    (h2 : env.parseRequest (env.context r) r resp s2 = .ret (req, ctx2) s3)
    (h3 : env.hasErrors resp s3 = .ret false s4)
    (h4 : env.validateRequest ctx2 req resp s4 = .ret ctx4 s5)
    (h5 : env.hasErrors resp s5 = .ret false s6)
    (h6 : env.executeRequest ctx4 req resp s6 = .ret ctx6 s7) :
    Handle env w r s = finalize env w r resp
      { world := s7, ctx := ctx6,
        trace := [.newResponse (env.context r) r, .hasErrors resp,
          .parseRequest (env.context r) r resp, .hasErrors resp,
          .validateRequest ctx2 req resp, .hasErrors resp,
          .executeRequest ctx4 req resp] } ∧
    ∃ es, (Handle env w r s).frame.trace =
        [.newResponse (env.context r) r, .hasErrors resp,
          .parseRequest (env.context r) r resp, .hasErrors resp,
          .validateRequest ctx2 req resp, .hasErrors resp,
          .executeRequest ctx4 req resp] ++ es ∧
      ∀ e ∈ es, e.isFinalization = true := by
  have hb := body_of_all_phases env r resp s1 s2 s3 s4 s5 s6 s7 req ctx2 ctx4 ctx6
    [.newResponse (env.context r) r] h1 h2 h3 h4 h5 h6
  have hH := Handle_of_body_ret env w r s s1 resp _ hnew hb
  exact ⟨hH, Handle_trace_of_finalize env w r s resp _ hH⟩

/-- The hypotheses of C10 hold for the scripted endpoint in which nothing adds a
diagnostic and nothing panics. -/
theorem clean_run_calls_each_phase_once_witness :
    Handle plain.env () () 0 =
      .ret ()
        { world := 0, ctx := 111,
          trace := [.newResponse 0 (), .hasErrors (), .parseRequest 0 () (), .hasErrors (),
            .validateRequest 1 7 (), .hasErrors (), .executeRequest 11 7 (),
            .send () 111 ()] } :=
  (clean_run_calls_each_phase_once plain.env () () 0 0 0 0 0 0 0 0 () 7 1 11 111
    rfl rfl rfl rfl rfl rfl rfl).1

/-- C11: on every exit path, when `NewResponse` returned and the finalization
returns, the run has exactly one answering call, either one `http.Redirect` or
one `Send`, never both and never neither; so `Send` is called at most once. -/
theorem exactly_one_terminal_action
    (env : Env σ Ctx Raw Req R Cookie P W) (w : W) (r : Raw) (s s1 : σ) (resp : R)
    (frF : Frame σ Ctx Raw Req R Cookie P W)
    (hnew : env.newResponse (env.context r) r s = .ret resp s1)
    (hfinal : finalize env w r resp (exitFrame env r resp s1) = .ret () frF) :
    ((∃ url code, (Handle env w r s).frame.trace.filter Event.isTerminal =
        [.redirect w r url code]) ∨
      ∃ ctx, (Handle env w r s).frame.trace.filter Event.isTerminal =
        [.send resp ctx w]) ∧
    ((Handle env w r s).frame.trace.filter Event.isTerminal).length = 1 ∧
    ((Handle env w r s).frame.trace.filter Event.isSend).length ≤ 1 := by
  obtain ⟨frC, hck, htr⟩ := finalize_ret_terminal env w r resp _ frF hfinal
  have hnone := no_terminal_before_redirectOrSend env w r resp s1 frC hck
  have hsub : ∀ l : List (Event Ctx Raw Req R Cookie P W),
      (l.filter Event.isSend).length ≤ (l.filter Event.isTerminal).length := by
    intro l
    induction l with
    | nil => simp
    | cons e l ih => cases e <;> simp [List.filter_cons, Event.isSend, Event.isTerminal] <;> omega
  have hmain : (∃ url code, (Handle env w r s).frame.trace.filter Event.isTerminal =
        [.redirect w r url code]) ∨
      ∃ ctx, (Handle env w r s).frame.trace.filter Event.isTerminal =
        [.send resp ctx w] := by
    rw [Handle_frame env w r s s1 resp hnew]
    rcases htr with ⟨url, code, h⟩ | h | h
    · left
      refine ⟨url, code, ?_⟩
      rw [h, List.filter_append, hnone]
      simp [List.filter, Event.isTerminal]
    · right
      refine ⟨(exitFrame env r resp s1).ctx, ?_⟩
      rw [h, List.filter_append, hnone]
      simp [List.filter, Event.isTerminal]
    · right
      refine ⟨(exitFrame env r resp s1).ctx, ?_⟩
      rw [h, List.filter_append, hnone]
      simp [List.filter, Event.isTerminal]
  have hone : ((Handle env w r s).frame.trace.filter Event.isTerminal).length = 1 := by
    rcases hmain with ⟨url, code, h⟩ | ⟨ctx, h⟩ <;> rw [h] <;> rfl
  exact ⟨hmain, hone, hone ▸ hsub _⟩

/-- The hypotheses of C11 hold on a path where `ExecuteRequest` panics and
`HandlePanic` panics too: the finalization still answers once, with `Send`. -/
theorem exactly_one_terminal_action_witness :
    ((Handle doublePanic.env () () 0).frame.trace.filter Event.isTerminal).length = 1 ∧
    ((Handle doublePanic.env () () 0).frame.trace.filter Event.isSend).length ≤ 1 :=
  (exactly_one_terminal_action doublePanic.env () () 0 0 ()
    (finalize doublePanic.env () () () (exitFrame doublePanic.env () () 0)).frame
    rfl rfl).2

/-- C14: `NewResponse` and `ParseRequest` receive the request's own context,
`ValidateRequest` the context `ParseRequest` returned, and `ExecuteRequest` the
context `ValidateRequest` returned: whenever a phase is reached, the calls of
the factory, of `HasErrors` and of the phases in the trace of the handler start
with the calls below, and they are exactly these when `ExecuteRequest` is
reached. -/
theorem each_phase_gets_previous_context
    (env : Env σ Ctx Raw Req R Cookie P W) (w : W) (r : Raw) (s s1 s2 : σ) (resp : R)
    (hnew : env.newResponse (env.context r) r s = .ret resp s1)
    (h1 : env.hasErrors resp s1 = .ret false s2) :
    [.newResponse (env.context r) r, .hasErrors resp,
        .parseRequest (env.context r) r resp] <+:
      (Handle env w r s).frame.trace.filter Event.isMainCall ∧
    ∀ req ctx2 s3 s4,
      env.parseRequest (env.context r) r resp s2 = .ret (req, ctx2) s3 →
      env.hasErrors resp s3 = .ret false s4 →
      [.newResponse (env.context r) r, .hasErrors resp,
          .parseRequest (env.context r) r resp, .hasErrors resp,
          .validateRequest ctx2 req resp] <+:
        (Handle env w r s).frame.trace.filter Event.isMainCall ∧
      ∀ ctx4 s5 s6,
        env.validateRequest ctx2 req resp s4 = .ret ctx4 s5 →
        env.hasErrors resp s5 = .ret false s6 →
        (Handle env w r s).frame.trace.filter Event.isMainCall =
          [.newResponse (env.context r) r, .hasErrors resp,
            .parseRequest (env.context r) r resp, .hasErrors resp,
            .validateRequest ctx2 req resp, .hasErrors resp,
            .executeRequest ctx4 req resp] := by
  rw [Handle_mainCalls env w r s s1 resp hnew]
  refine ⟨?_, ?_⟩
  · simpa using body_trace_of_parse env r resp s1 s2 [.newResponse (env.context r) r] h1
  · intro req ctx2 s3 s4 h2 h3
    refine ⟨?_, ?_⟩
    · simpa using body_trace_of_validate env r resp s1 s2 s3 s4 req ctx2
        [.newResponse (env.context r) r] h1 h2 h3
    · intro ctx4 s5 s6 h4 h5
      simpa using body_trace_of_execute env r resp s1 s2 s3 s4 s5 s6 req ctx2 ctx4
        [.newResponse (env.context r) r] h1 h2 h3 h4 h5

/-- The hypotheses of C14 hold for the scripted endpoint whose
`ExecuteRequest` panics: the phases were given the contexts 0, 1 and 11. -/
theorem each_phase_gets_previous_context_witness :
    (Handle executePanics.env () () 0).frame.trace.filter Event.isMainCall =
      [.newResponse 0 (), .hasErrors (), .parseRequest 0 () (), .hasErrors (),
        .validateRequest 1 7 (), .hasErrors (), .executeRequest 11 7 ()] :=
  (each_phase_gets_previous_context executePanics.env () () 0 0 0 () rfl rfl).2
    7 1 0 0 rfl rfl |>.2 11 0 0 rfl rfl

/-- C18: the trace of the handler is, in this order, the calls made before the
finalization (no finalization call among them, so every `HandlePanic` is
there), then the calls of the cookie half, then the calls of the second half
(`RedirectTo`, `http.Redirect`, `Send`).  When `WriteCookies` returns `cs`, the
cookie half is `WriteCookies` followed by `http.SetCookie` on the entries of
`cs` in their order, as far as the loop gets. -/
theorem finalization_calls_in_order
    (env : Env σ Ctx Raw Req R Cookie P W) (w : W) (r : Raw) (s s1 : σ) (resp : R)
    (hnew : env.newResponse (env.context r) r s = .ret resp s1) :
    ∃ B C, (Handle env w r s).frame.trace = (exitFrame env r resp s1).trace ++ B ++ C ∧
      (∀ e ∈ (exitFrame env r resp s1).trace, e.isFinalization = false) ∧
      (∀ e ∈ B, e.isCookieWriting = true) ∧
      (∀ e ∈ C, e.isRedirectOrSend = true) ∧
      ∀ getCookies cs s2, env.cookieWriter resp = some getCookies →
        getCookies (exitFrame env r resp s1).world = .ret cs s2 →
        ∃ ds, ds <+: cs ∧ B = .writeCookies resp :: ds.map (Event.setCookie w) := by
  obtain ⟨B, C, htr, hB, hC, _, hshape⟩ :=
    finalize_trace_shape env w r resp (exitFrame env r resp s1)
  refine ⟨B, C, ?_, (exitFrame_handlePanic env r resp s1).1, hB, hC, hshape⟩
  rw [Handle_frame env w r s s1 resp hnew, htr]

/-- The hypothesis of C18 holds for a scripted endpoint whose `ParseRequest`
panics and whose response writes three cookies and redirects. -/
theorem finalization_calls_in_order_witness :
    ∃ B C, (Handle cookiesAfterPanic.env () () 0).frame.trace =
        (exitFrame cookiesAfterPanic.env () () 0).trace ++ B ++ C ∧
      (∀ e ∈ (exitFrame cookiesAfterPanic.env () () 0).trace, e.isFinalization = false) ∧
      (∀ e ∈ B, e.isCookieWriting = true) ∧
      (∀ e ∈ C, e.isRedirectOrSend = true) ∧
      ∀ getCookies cs s2, cookiesAfterPanic.env.cookieWriter () = some getCookies →
        getCookies (exitFrame cookiesAfterPanic.env () () 0).world = .ret cs s2 →
        ∃ ds, ds <+: cs ∧ B = .writeCookies () :: ds.map (Event.setCookie ()) :=
  finalization_calls_in_order cookiesAfterPanic.env () () 0 0 () rfl

/-- C20: `Send` and `HandlePanic` are given the value the local `ctx` has when
they are called: every `Send` and every `HandlePanic` in the trace carries the
`ctx` of the frame the finalization starts in.  That `ctx` is the one
`ExecuteRequest` returned on normal completion, the one the last completed
phase returned when a phase panics (the request's own when it is
`ParseRequest`), and the request's own when the first `HasErrors` check stops
the run. -/
theorem send_and_handlePanic_get_current_context
    (env : Env σ Ctx Raw Req R Cookie P W) (w : W) (r : Raw) (s s1 : σ) (resp : R)
    (hnew : env.newResponse (env.context r) r s = .ret resp s1) :
    (∀ e ∈ (Handle env w r s).frame.trace, e.isSend = true →
      e = .send resp (exitFrame env r resp s1).ctx w) ∧
    (∀ e ∈ (Handle env w r s).frame.trace, e.isHandlePanic = true →
      ∃ v, e = .handlePanic resp (exitFrame env r resp s1).ctx v) ∧
    (∀ s2 s3 s4 s5 s6 s7 req ctx2 ctx4 ctx6,
      env.hasErrors resp s1 = .ret false s2 →
      env.parseRequest (env.context r) r resp s2 = .ret (req, ctx2) s3 →
      env.hasErrors resp s3 = .ret false s4 →
      env.validateRequest ctx2 req resp s4 = .ret ctx4 s5 →
      env.hasErrors resp s5 = .ret false s6 →
      env.executeRequest ctx4 req resp s6 = .ret ctx6 s7 →
      (exitFrame env r resp s1).ctx = ctx6) ∧
    (∀ v ctxP sP T, PhasePanics env r resp s1 v ctxP sP T →
      (exitFrame env r resp s1).ctx = ctxP ∧
      .handlePanic resp ctxP v ∈ (Handle env w r s).frame.trace) ∧
    (∀ s2, env.hasErrors resp s1 = .ret true s2 →
      (exitFrame env r resp s1).ctx = env.context r) ∧
    ∀ frC, writeCookies env w resp (exitFrame env r resp s1) = .ret () frC →
      env.redirecter resp = none →
      .send resp (exitFrame env r resp s1).ctx w ∈ (Handle env w r s).frame.trace := by
  obtain ⟨B, C, htr, hB, hC, hsend, _⟩ :=
    finalize_trace_shape env w r resp (exitFrame env r resp s1)
  obtain ⟨hexit, hhp⟩ := exitFrame_handlePanic env r resp s1
  have hH := Handle_frame env w r s s1 resp hnew
  refine ⟨?_, ?_, ?_, ?_, ?_, ?_⟩
  · intro e hmem hs
    rw [hH, htr] at hmem
    rcases List.mem_append.mp hmem with h | h
    · rcases List.mem_append.mp h with h | h
      · have h1 := hexit e h
        rw [Event.isSend_isFinalization e hs] at h1
        exact absurd h1 (by decide)
      · have h1 := Event.not_isSend_of_isCookieWriting e (hB e h)
        rw [hs] at h1
        exact absurd h1 (by decide)
    · exact hsend e h hs
  · intro e hmem hp
    rw [hH, htr] at hmem
    rcases List.mem_append.mp hmem with h | h
    · rcases List.mem_append.mp h with h | h
      · exact hhp e h hp
      · have h1 := Event.not_isHandlePanic_of_isCookieWriting e (hB e h)
        rw [hp] at h1
        exact absurd h1 (by decide)
    · have h1 := Event.not_isHandlePanic_of_isRedirectOrSend e (hC e h)
      rw [hp] at h1
      exact absurd h1 (by decide)
  · intro s2 s3 s4 s5 s6 s7 req ctx2 ctx4 ctx6 h1 h2 h3 h4 h5 h6
    unfold exitFrame
    rw [body_of_all_phases env r resp s1 s2 s3 s4 s5 s6 s7 req ctx2 ctx4 ctx6 _
      h1 h2 h3 h4 h5 h6]
    rfl
  · intro v ctxP sP T hpanic
    have hE : exitFrame env r resp s1 =
        (call (.handlePanic resp ctxP v) (env.handlePanic resp ctxP v)
          { world := sP, ctx := ctxP,
            trace := [.newResponse (env.context r) r] ++ T }).frame := by
      unfold exitFrame
      rw [body_of_phasePanics env r resp s1 sP v ctxP T _ hpanic]
      rfl
    refine ⟨by rw [hE, call_frame_ctx], ?_⟩
    rw [hH, htr, hE, call_frame_trace]
    simp
  · intro s2 h1
    rw [exitFrame_of_shortCircuits env r resp s1 s2 (env.context r) _
      (ShortCircuits.created _ h1)]
  · intro frC hck hred
    rw [hH, finalize_trace_of_no_redirecter env w r resp _ frC hck hred]
    simp

/-- The hypothesis of C20 holds for the scripted endpoint whose
`ValidateRequest` panics: `HandlePanic` and `Send` are given the context 1 that
`ParseRequest` returned, not the request's own context 0. -/
theorem send_and_handlePanic_get_current_context_witness :
    (exitFrame validatePanics.env () () 0).ctx = 1 ∧
    .handlePanic () 1 3 ∈ (Handle validatePanics.env () () 0).frame.trace ∧
    .send () 1 () ∈ (Handle validatePanics.env () () 0).frame.trace :=
  ⟨((send_and_handlePanic_get_current_context validatePanics.env () () 0 0 ()
      rfl).2.2.2.1 3 1 0 _ (PhasePanics.validate 0 0 0 0 7 1 rfl rfl rfl rfl)).1,
    ((send_and_handlePanic_get_current_context validatePanics.env () () 0 0 ()
      rfl).2.2.2.1 3 1 0 _ (PhasePanics.validate 0 0 0 0 7 1 rfl rfl rfl rfl)).2,
    (send_and_handlePanic_get_current_context validatePanics.env () () 0 0 ()
      rfl).2.2.2.2.2 _ rfl rfl⟩

end Claims

section ResponseClaims

variable {E T : Type}

/-- C12: `HasErrors` is true exactly when `Diags` holds a diagnostic of severity
`DiagnosticError`; it is false for an empty list, and false for a list in which
every diagnostic has severity `DiagnosticWarning`, whatever its length and
order. -/
theorem hasErrors_iff_error_diagnostic (r : Response E T) :
    (r.HasErrors = true ↔ ∃ d ∈ r.Diags, d.Severity = Severity.DiagnosticError) ∧
    ({ r with Diags := [] } : Response E T).HasErrors = false ∧
    ((∀ d ∈ r.Diags, d.Severity = Severity.DiagnosticWarning) → r.HasErrors = false) := by
  refine ⟨hasErrorIn_iff r.Diags, rfl, ?_⟩
  intro hall
  cases h : r.HasErrors with
  | false => rfl
  | true =>
    obtain ⟨d, hd, hsev⟩ := (hasErrorIn_iff r.Diags).mp h
    rw [hall d hd] at hsev
    exact absurd hsev (by decide)

/-- C13: when the content type chosen by negotiation is the content type of no
registered encoder, and so whenever no encoder is registered, `NewResponse`
attaches `jsonEncoder{}`; the encoder of the response it returns is never
nil. -/
theorem newResponse_falls_back_to_json (ops : Encoders E T)
    (negotiate : String → List String → String) (rf : ResponseFactory E T)
    (accept : String) :
    ((∀ e ∈ rf.encoders,
        ops.contentType e ≠ negotiate accept (rf.encoders.map ops.contentType)) →
      (rf.NewResponse ops negotiate accept).enc = some ops.jsonEncoder) ∧
    (rf.encoders = [] → (rf.NewResponse ops negotiate accept).enc = some ops.jsonEncoder) ∧
    (rf.NewResponse ops negotiate accept).enc ≠ none := by
  have hmiss : (∀ e ∈ rf.encoders,
        ops.contentType e ≠ negotiate accept (rf.encoders.map ops.contentType)) →
      (rf.NewResponse ops negotiate accept).enc = some ops.jsonEncoder := by
    intro h
    rw [NewResponse_enc, register_lookup_none ops rf.encoders _ _ h]
    rfl
  refine ⟨hmiss, ?_, ?_⟩
  · intro hempty
    apply hmiss
    rw [hempty]
    simp
  · rw [NewResponse_enc]
    simp

/-- The factory of `TestResponse`, which has no encoders, attaches
`jsonEncoder{}` to the response of a request without an `Accept` header. -/
theorem newResponse_falls_back_to_json_witness :
    (testFactory.NewResponse sampleEncoders Negotiate "").enc =
      some sampleEncoders.jsonEncoder :=
  (newResponse_falls_back_to_json sampleEncoders Negotiate testFactory "").2.1 rfl

/-- C16: `AddError` and `AddWarning` keep the entries of `Diags` as they are, in
their order, and put one new entry after them, with the severity of the method
and the code and paths given; `SetStatus` leaves `Diags` as it is; after
`AddError`, `HasErrors` is true. -/
theorem diagnostics_are_append_only (r : Response E T) (code : Code) (paths : List Steps)
    (status : Int) :
    (r.AddError code paths).Diags = r.Diags ++
      [{ Severity := Severity.DiagnosticError, Code := code, Paths := paths }] ∧
    (r.AddWarning code paths).Diags = r.Diags ++
      [{ Severity := Severity.DiagnosticWarning, Code := code, Paths := paths }] ∧
    (r.SetStatus status).Diags = r.Diags ∧
    (r.AddError code paths).HasErrors = true := by
  refine ⟨rfl, rfl, rfl, ?_⟩
  simp [Response.HasErrors, Response.AddError, hasErrorIn_append, hasErrorIn]

/-- C17: when negotiation yields the content type of a registered encoder,
`NewResponse` attaches a registered encoder whose content type is that one; and
with the encoders A (`text/a`) and B (`text/b`) and the header
`text/b, text/a;q=0.5`, negotiation yields `text/b` and the factory attaches
B. -/
theorem newResponse_attaches_negotiated_encoder (ops : Encoders E T)
    (negotiate : String → List String → String) (rf : ResponseFactory E T)
    (accept : String) :
    ((∃ e ∈ rf.encoders,
        ops.contentType e = negotiate accept (rf.encoders.map ops.contentType)) →
      ∃ e ∈ rf.encoders, (rf.NewResponse ops negotiate accept).enc = some e ∧
        ops.contentType e = negotiate accept (rf.encoders.map ops.contentType)) ∧
    Negotiate "text/b, text/a;q=0.5" (factoryAB.encoders.map sampleEncoders.contentType) =
      "text/b" ∧
    (factoryAB.NewResponse sampleEncoders Negotiate "text/b, text/a;q=0.5").enc = some 2 ∧
    sampleEncoders.contentType 2 = "text/b" := by
  refine ⟨?_, by rfl, by rfl, by rfl⟩
  intro h
  obtain ⟨e, he, hlook, hct⟩ := register_lookup_some ops rf.encoders ([], fun _ => none) _ h
  refine ⟨e, he, ?_, hct⟩
  rw [NewResponse_enc, hlook]
  rfl

/-- The general part of C17 at the spec's example: the encoder attached is a
registered one with content type `text/b`. -/
theorem newResponse_attaches_negotiated_encoder_witness :
    ∃ e ∈ factoryAB.encoders,
      (factoryAB.NewResponse sampleEncoders Negotiate "text/b, text/a;q=0.5").enc = some e ∧
      sampleEncoders.contentType e =
        Negotiate "text/b, text/a;q=0.5" (factoryAB.encoders.map sampleEncoders.contentType) :=
  (newResponse_attaches_negotiated_encoder sampleEncoders Negotiate factoryAB
    "text/b, text/a;q=0.5").1 ⟨2, by decide, by rfl⟩

/-- C19 as stated fails, twice over.  With an encoder that returns an error and
no test handle (`t` is nil, as in every response of the factory of
`TestHandler`), `Send` panics at `r.t.Errorf` and calls nothing on the writer,
where the claim has it write the status 500.  With an encoder that succeeds and
the status 0 of a fresh response, on a writer in the manner of `net/http`,
`Send` panics at `WriteHeader(0)` and never writes the body. -/
theorem send_panics_before_writing :
    sampleEncoders.encode 3
        { t := none, enc := some 3, status := 200, Diags := [] } = .error "broken" ∧
    Response.Send sampleEncoders httpWriter
        { t := none, enc := some 3, status := 200, Diags := [] } freshSink =
      .panic (some nilDereference) freshSink ∧
    Response.Send sampleEncoders httpWriter
        (factoryAB.NewResponse sampleEncoders Negotiate "text/b") freshSink =
      .panic (some "invalid WriteHeader code")
        { calls := [.setHeader "Content-Type" "text/b", .writeHeader 0], reported := [],
          writer := () } := by
  exact ⟨rfl, rfl, rfl⟩

/-- C19, amended: for a response with a non-nil encoder.  When the encoder
succeeds, the calls `Send` makes on the writer are `Header().Set` of
`Content-Type` to the content type of the encoder, `WriteHeader` of the status
of the response and `Write` of the bytes the encoder returned, in this order, up
to the first that panics; when the three return, `Send` returns having made
exactly these.  When the encoder returns an error and the response has a test
handle, `Send` reports the error to it and calls `WriteHeader(500)` and nothing
else on the writer, and returns when that call returns. -/
theorem send_writes_what_the_encoder_gives {ω : Type} (ops : Encoders E T) (w : Writer ω)
    (r : Response E T) (k : Sink T ω) (enc : E) (henc : r.enc = some enc) :
    (∀ body, ops.encode enc r = .ok body →
      (∃ cs, cs <+: [WriterCall.setHeader "Content-Type" (ops.contentType enc),
          .writeHeader r.status, .write body] ∧
        (r.Send ops w k).frame.calls = k.calls ++ cs) ∧
      ∀ x1 x2 x3,
        w.setHeader "Content-Type" (ops.contentType enc) k.writer = .ret () x1 →
        w.writeHeader r.status x1 = .ret () x2 →
        w.write body x2 = .ret () x3 →
        r.Send ops w k = .ret ()
          { k with
            calls := k.calls ++
              [.setHeader "Content-Type" (ops.contentType enc), .writeHeader r.status,
                .write body],
            writer := x3 }) ∧
    ∀ err t, ops.encode enc r = .error err → r.t = some t →
      (r.Send ops w k).frame.calls = k.calls ++ [.writeHeader 500] ∧
      (r.Send ops w k).frame.reported = k.reported ++
        [(t, "An unexpected error occurred sending the response: " ++ err)] ∧
      ∀ x1, w.writeHeader 500 k.writer = .ret () x1 →
        r.Send ops w k = .ret ()
          { calls := k.calls ++ [.writeHeader 500],
            reported := k.reported ++
              [(t, "An unexpected error occurred sending the response: " ++ err)],
            writer := x1 } :=
  ⟨fun body hok =>
      ⟨Send_calls_of_encode_ok ops w r k enc body henc hok,
        fun x1 x2 x3 h1 h2 h3 => Send_of_encode_ok ops w r k enc body x1 x2 x3 henc hok h1 h2 h3⟩,
    fun err t herr ht => Send_of_encode_error ops w r k enc err t henc herr ht⟩

/-- The hypothesis of the amended C19 holds, on a writer in the manner of
`net/http`, for a response with the encoder B and the status 201 and for one
with a failing encoder and a test handle. -/
theorem send_writes_what_the_encoder_gives_witness :
    Response.Send sampleEncoders httpWriter
        { t := none, enc := some 2, status := 201, Diags := [] } freshSink =
      .ret ()
        { calls := [.setHeader "Content-Type" "text/b", .writeHeader 201, .write [201, 0]],
          reported := [], writer := () } ∧
    Response.Send sampleEncoders httpWriter
        { t := some (), enc := some 3, status := 201, Diags := [] } freshSink =
      .ret ()
        { calls := [.writeHeader 500],
          reported := [((), "An unexpected error occurred sending the response: broken")],
          writer := () } :=
  ⟨((send_writes_what_the_encoder_gives sampleEncoders httpWriter
      { t := none, enc := some 2, status := 201, Diags := [] } freshSink 2 rfl).1
        [201, 0] rfl).2 () () () rfl rfl rfl,
    ((send_writes_what_the_encoder_gives sampleEncoders httpWriter
      { t := some (), enc := some 3, status := 201, Diags := [] } freshSink 3 rfl).2
        "broken" () rfl rfl).2.2 () rfl⟩

/-- C15: warnings never stop the run.  For an endpoint on `Response` (its
`HasErrors` is `Response.HasErrors`, and the response is neither a
`CookieWriter` nor a `Redirecter`) whose fresh response has no errors and whose
`ParseRequest` and `ValidateRequest` return having added diagnostics through
`AddWarning` only, `HasErrors` is false at the three checks, the three phases
are called in order, and the run ends with its one answering call, `Send`. -/
theorem warnings_do_not_stop_the_run {σ Ctx Raw Req R Cookie P W : Type}
    (env : Env σ Ctx Raw Req R Cookie P W) (respOf : σ → Response E T)
    (w : W) (r : Raw) (s s1 s3 s5 : σ) (resp : R) (req : Req) (ctx2 ctx4 : Ctx)
    (hHasErrors : ∀ x, env.hasErrors resp x = .ret (respOf x).HasErrors x)
    (hcw : env.cookieWriter resp = none)
    (hred : env.redirecter resp = none)
    (hnew : env.newResponse (env.context r) r s = .ret resp s1)
    (hstart : (respOf s1).HasErrors = false)
    (hparse : env.parseRequest (env.context r) r resp s1 = .ret (req, ctx2) s3)
    (hparseW : AddsOnlyWarnings (respOf s1) (respOf s3))
    (hvalidate : env.validateRequest ctx2 req resp s3 = .ret ctx4 s5)
    (hvalidateW : AddsOnlyWarnings (respOf s3) (respOf s5)) :
    (env.hasErrors resp s1 = .ret false s1 ∧ env.hasErrors resp s3 = .ret false s3 ∧
      env.hasErrors resp s5 = .ret false s5) ∧
    (Handle env w r s).frame.trace.filter Event.isMainCall =
      [.newResponse (env.context r) r, .hasErrors resp,
        .parseRequest (env.context r) r resp, .hasErrors resp,
        .validateRequest ctx2 req resp, .hasErrors resp,
        .executeRequest ctx4 req resp] ∧
    (Handle env w r s).frame.trace.filter Event.isTerminal =
      [.send resp (exitFrame env r resp s1).ctx w] ∧
    (Handle env w r s).frame.trace.getLast? =
      some (.send resp (exitFrame env r resp s1).ctx w) := by
  have e3 : (respOf s3).HasErrors = false := by
    rw [HasErrors_of_addsOnlyWarnings _ _ hparseW, hstart]
  have e5 : (respOf s5).HasErrors = false := by
    rw [HasErrors_of_addsOnlyWarnings _ _ hvalidateW, e3]
  have h1 : env.hasErrors resp s1 = .ret false s1 := by rw [hHasErrors, hstart]
  have h3 : env.hasErrors resp s3 = .ret false s3 := by rw [hHasErrors, e3]
  have h5 : env.hasErrors resp s5 = .ret false s5 := by rw [hHasErrors, e5]
  have hck : writeCookies env w resp (exitFrame env r resp s1) =
      .ret () (exitFrame env r resp s1) := by
    simp [writeCookies, hcw]
  have htr := finalize_trace_of_no_redirecter env w r resp _ _ hck hred
  have hnone := no_terminal_before_redirectOrSend env w r resp s1 _ hck
  refine ⟨⟨h1, h3, h5⟩, ?_, ?_, ?_⟩
  · rw [Handle_mainCalls env w r s s1 resp hnew]
    simpa using body_trace_of_execute env r resp s1 s1 s3 s3 s5 s5 req ctx2 ctx4
      [.newResponse (env.context r) r] h1 hparse h3 hvalidate h5
  · rw [Handle_frame env w r s s1 resp hnew, htr, List.filter_append, hnone]
    simp [List.filter, Event.isTerminal]
  · rw [Handle_frame env w r s s1 resp hnew, htr]
    simp

/-- The hypotheses of C15 hold for the endpoint on `Response` whose
`ParseRequest` adds two warnings and whose `ValidateRequest` adds one. -/
theorem warnings_do_not_stop_the_run_witness :
    (Handle warningEndpoint () "text/b" idle).frame.trace.filter Event.isMainCall =
      [.newResponse 0 "text/b", .hasErrors (), .parseRequest 0 "text/b" (), .hasErrors (),
        .validateRequest 1 7 (), .hasErrors (), .executeRequest 11 7 ()] ∧
    (Handle warningEndpoint () "text/b" idle).frame.trace.filter Event.isTerminal =
      [.send () 111 ()] :=
  ⟨(warnings_do_not_stop_the_run warningEndpoint Prod.fst () "text/b" idle
      (warningEndpoint.newResponse 0 "text/b" idle).frame
      (warningEndpoint.parseRequest 0 "text/b" ()
        (warningEndpoint.newResponse 0 "text/b" idle).frame).frame
      (warningEndpoint.validateRequest 1 7 ()
        (warningEndpoint.parseRequest 0 "text/b" ()
          (warningEndpoint.newResponse 0 "text/b" idle).frame).frame).frame
      () 7 1 11 (fun _ => rfl) rfl rfl rfl rfl rfl
      ⟨[("deprecated", [["a"]]), ("slow", [])], rfl⟩ rfl
      ⟨[("unknown-field", [["b", "c"]])], rfl⟩).2.1,
    (warnings_do_not_stop_the_run warningEndpoint Prod.fst () "text/b" idle
      (warningEndpoint.newResponse 0 "text/b" idle).frame
      (warningEndpoint.parseRequest 0 "text/b" ()
        (warningEndpoint.newResponse 0 "text/b" idle).frame).frame
      (warningEndpoint.validateRequest 1 7 ()
        (warningEndpoint.parseRequest 0 "text/b" ()
          (warningEndpoint.newResponse 0 "text/b" idle).frame).frame).frame
      () 7 1 11 (fun _ => rfl) rfl rfl rfl rfl rfl
      ⟨[("deprecated", [["a"]]), ("slow", [])], rfl⟩ rfl
      ⟨[("unknown-field", [["b", "c"]])], rfl⟩).2.2.1⟩

end ResponseClaims

end Genhttp
